import Mathlib

/-!
# fat-reader: a FAT16 image inspector (`src/main.cpp`)

Shallow embedding of `main.cpp`.

* Bytes (`u_char`) are `Fin 256`; a `std::string` is the list of its bytes.
* `u_short` values are naturals assembled from two bytes, `int` values are integers kept in
  the two's-complement range of 32 bits (`int_wrap`).
* The two records are declared under `#pragma pack(push, 1)`: the offset of a member is the
  sum of the sizes of the members before it.  The sizes of `u_char`, `char`, `u_short` and
  `int` are 1, 1, 2 and 4; the size of `u_long` (and of `size_t`) is a parameter of the
  data model (`LP64`: 8 bytes, `ILP32`: 4 bytes).  The host is little-endian.
* `std::ifstream` is a byte list, a read position and the fail bit; every `read` call is
  logged with its position, the count requested and the count obtained.
* A `std::map` with string keys is the list of its pairs in ascending key order, the keys
  being compared bytewise.
-/

namespace Fat16

/-! ## Machine types -/

/-- One byte, the C type `u_char`. -/
abbrev u_char := Fin 256

/-- The sizes the C compiler gives to the types whose width is not fixed by the program. -/
structure DataModel where
  /-- The value of `sizeof(unsigned long)`, which is also `sizeof(size_t)`. -/
  sizeof_long : Nat
deriving DecidableEq, Repr

/-- The data model of 64-bit Linux and macOS. -/
def LP64 : DataModel := ⟨8⟩

/-- The data model of 32-bit Unix systems. -/
def ILP32 : DataModel := ⟨4⟩

/-- The scalar types that occur in the two records. -/
inductive CType where
  | u_char
  | char
  | u_short
  | int
  | u_long
deriving DecidableEq, Repr

/-- The value of `sizeof(T)`. -/
def sizeof (dm : DataModel) : CType → Nat
  | .u_char => 1
  | .char => 1
  | .u_short => 2
  | .int => 4
  | .u_long => dm.sizeof_long

/-- Wraps an integer into the range of a 32-bit two's-complement `int`. -/
def int_wrap (x : Int) : Int := (x + 2147483648) % 4294967296 - 2147483648

/-- The largest `int`. -/
def INT_MAX : Int := 2147483647

/-- The smallest `int`. -/
def INT_MIN : Int := -2147483648

/-- Addition of two `int` values. -/
def int_add (a b : Int) : Int := int_wrap (a + b)

/-- Multiplication of two `int` values. -/
def int_mul (a b : Int) : Int := int_wrap (a * b)

/-- Conversion of an `int` to `size_t`: reduction modulo `2 ^ (8 * sizeof(size_t))`. -/
def to_size_t (dm : DataModel) (x : Int) : Nat := (x % (2 ^ (8 * dm.sizeof_long) : Int)).toNat

/-! ## Packed records -/

/-- A member declaration `type name[count]` (`count = 1` for a scalar member). -/
structure Member where
  name : String
  type : CType
  count : Nat
deriving DecidableEq, Repr

/-- The size in bytes of a member. -/
def Member.size (dm : DataModel) (m : Member) : Nat := sizeof dm m.type * m.count

/-- The size of a record packed with alignment 1: the sum of its members' sizes. -/
def sizeof_struct (dm : DataModel) : List Member → Nat
  | [] => 0
  | m :: ms => m.size dm + sizeof_struct dm ms

/-- The offset of member `x` in a record packed with alignment 1. -/
def offsetof (dm : DataModel) : List Member → String → Nat
  | [], _ => 0
  | m :: ms, x => if m.name = x then 0 else m.size dm + offsetof dm ms x

/-- The size of member `x` of a record. -/
def member_size (dm : DataModel) : List Member → String → Nat
  | [], _ => 0
  | m :: ms, x => if m.name = x then m.size dm else member_size dm ms x

/-- The bytes of member `x` in the object representation `raw` of a record. -/
def member_bytes (dm : DataModel) (ms : List Member) (raw : List u_char) (x : String) :
    List u_char :=
  (raw.drop (offsetof dm ms x)).take (member_size dm ms x)

/-- The unsigned value of a little-endian byte sequence. -/
def le_value : List u_char → Nat
  | [] => 0
  | b :: bs => b.val + 256 * le_value bs

/-- The members of `struct fat16_bs_t`, in declaration order. -/
def fat16_bs_members : List Member :=
  [ ⟨"bootjmp", .u_char, 3⟩,
    ⟨"oem", .u_char, 8⟩,
    ⟨"sect_size", .u_short, 1⟩,
    ⟨"sects_in_cluster", .u_char, 1⟩,
    ⟨"rsrvd_sects", .u_short, 1⟩,
    ⟨"fats_n", .u_char, 1⟩,
    ⟨"root_files_n", .u_short, 1⟩,
    ⟨"sect_n", .u_short, 1⟩,
    ⟨"media", .u_char, 1⟩,
    ⟨"fat_size", .u_short, 1⟩,
    ⟨"sects_per_track", .u_short, 1⟩,
    ⟨"heads_n", .u_short, 1⟩,
    ⟨"hidden_sects_n", .u_long, 1⟩,
    ⟨"total_sects_long", .u_long, 1⟩,
    ⟨"drive", .u_char, 1⟩,
    ⟨"current_head", .u_char, 1⟩,
    ⟨"boot_signature", .u_char, 1⟩,
    ⟨"volume_id", .u_long, 1⟩,
    ⟨"volume_label", .char, 11⟩,
    ⟨"fs_type", .char, 8⟩,
    ⟨"boot_code", .char, 448⟩,
    ⟨"signature", .u_short, 1⟩ ]

/-- The members of `struct fat16_entry_t`, in declaration order. -/
def fat16_entry_members : List Member :=
  [ ⟨"filename", .u_char, 8⟩,
    ⟨"ext", .u_char, 3⟩,
    ⟨"attributes", .u_char, 1⟩,
    ⟨"reserved", .u_char, 10⟩,
    ⟨"modify_time", .u_short, 1⟩,
    ⟨"modify_date", .u_short, 1⟩,
    ⟨"starting_cluster", .u_short, 1⟩,
    ⟨"file_size", .int, 1⟩ ]

/-- An object of type `fat16_bs_t`: its object representation. -/
structure fat16_bs_t where
  raw : List u_char
deriving DecidableEq, Repr

/-- An object of type `fat16_entry_t`: its object representation. -/
structure fat16_entry_t where
  raw : List u_char
deriving DecidableEq, Repr

/-- The unsigned value of member `x` of a boot-sector object. -/
def fat16_bs_t.field (dm : DataModel) (bs : fat16_bs_t) (x : String) : Nat :=
  le_value (member_bytes dm fat16_bs_members bs.raw x)

def fat16_bs_t.sect_size (dm : DataModel) (bs : fat16_bs_t) : Nat := bs.field dm "sect_size"
def fat16_bs_t.sects_in_cluster (dm : DataModel) (bs : fat16_bs_t) : Nat :=
  bs.field dm "sects_in_cluster"
def fat16_bs_t.rsrvd_sects (dm : DataModel) (bs : fat16_bs_t) : Nat := bs.field dm "rsrvd_sects"
def fat16_bs_t.fats_n (dm : DataModel) (bs : fat16_bs_t) : Nat := bs.field dm "fats_n"
def fat16_bs_t.root_files_n (dm : DataModel) (bs : fat16_bs_t) : Nat :=
  bs.field dm "root_files_n"
def fat16_bs_t.fat_size (dm : DataModel) (bs : fat16_bs_t) : Nat := bs.field dm "fat_size"
def fat16_bs_t.boot_signature (dm : DataModel) (bs : fat16_bs_t) : Nat :=
  bs.field dm "boot_signature"
def fat16_bs_t.signature (dm : DataModel) (bs : fat16_bs_t) : Nat := bs.field dm "signature"

/-- The bytes of member `x` of a directory-entry object. -/
def fat16_entry_t.bytes (dm : DataModel) (e : fat16_entry_t) (x : String) : List u_char :=
  member_bytes dm fat16_entry_members e.raw x

def fat16_entry_t.filename (dm : DataModel) (e : fat16_entry_t) : List u_char :=
  e.bytes dm "filename"
def fat16_entry_t.ext (dm : DataModel) (e : fat16_entry_t) : List u_char := e.bytes dm "ext"
def fat16_entry_t.attributes (dm : DataModel) (e : fat16_entry_t) : Nat :=
  le_value (e.bytes dm "attributes")
def fat16_entry_t.modify_time (dm : DataModel) (e : fat16_entry_t) : Nat :=
  le_value (e.bytes dm "modify_time")
def fat16_entry_t.modify_date (dm : DataModel) (e : fat16_entry_t) : Nat :=
  le_value (e.bytes dm "modify_date")
def fat16_entry_t.starting_cluster (dm : DataModel) (e : fat16_entry_t) : Nat :=
  le_value (e.bytes dm "starting_cluster")
/-- The member `int file_size`: the four bytes read as a signed 32-bit integer. -/
def fat16_entry_t.file_size (dm : DataModel) (e : fat16_entry_t) : Int :=
  int_wrap (le_value (e.bytes dm "file_size"))

/-! ## `uchar2string` and `date_format` -/

/-- The bytes of a string literal. -/
def str (s : String) : List u_char := s.toList.map (fun c => Fin.ofNat c.toNat)

/-- The algorithm `std::find_if(first, last, pred)` for a predicate that updates a captured
state: the predicate is applied to the elements in order until it first returns `true`.
The iterator it returns is discarded by the caller, so only the final state is kept. -/
def find_if {α σ : Type} (pred : σ → α → Bool × σ) : List α → σ → σ
  | [], st => st
  | c :: rest, st =>
    match pred st c with
    | (true, st1) => st1
    | (false, st1) => find_if pred rest st1

/-- The lambda of `uchar2string`, with the captured `str` as explicit state. -/
def uchar2string_pred (str : List u_char) (c : u_char) : Bool × List u_char :=
  if c = 0 ∨ c = 32 then (true, str) else (false, str ++ [c])

/-- The function `uchar2string(s, size)`. -/
def uchar2string (s : List u_char) (size : Nat) : List u_char :=
  find_if uchar2string_pred (s.take size) []

/-- The six integers `date_format` writes to the stream, in the order it writes them. -/
def date_format_fields (date time : Nat) : List Nat :=
  [ 1980 + (date >>> 0x9),
    (date >>> 5) &&& 0xf,
    date &&& 0x1f,
    time &&& 0x1f,
    (time >>> 0x5) &&& 0x3f,
    time >>> 11 ]

/-- The three integers of the date, in the order written. -/
def date_fields (date : Nat) : List Nat := (date_format_fields date 0).take 3

/-- The three integers of the time, in the order written. -/
def time_fields (time : Nat) : List Nat := (date_format_fields 0 time).drop 3

/-- The function `date_format(date, time, delim)`. -/
def date_format (date time : Nat) (delim : Char) : String :=
  match date_format_fields date time with
  | [y, m, d, a, b, c] =>
    toString y ++ delim.toString ++ toString m ++ delim.toString ++ toString d ++ " " ++
      toString a ++ delim.toString ++ toString b ++ delim.toString ++ toString c
  | _ => ""

/-! ## The input stream -/

/-- One call of `read`: the position before the call, the count requested and the count
of bytes obtained. -/
structure ReadEvent where
  pos : Nat
  requested : Nat
  gcount : Nat
deriving DecidableEq, Repr

/-- A `std::ifstream` opened on an image: the bytes of the file, the read position, the
fail bit and the log of the `read` calls made so far. -/
structure ifstream where
  data : List u_char
  pos : Nat
  failbit : Bool
  log : List ReadEvent
deriving DecidableEq, Repr

/-- The stream after a successful `fs.open(path, in | binary)` on a file holding `img`. -/
def ifstream.opened (img : List u_char) : ifstream := ⟨img, 0, false, []⟩

/-- The call `fs.read(reinterpret_cast<char *>(&obj), n)` on a zero-initialised object
`obj` of `n` bytes: the object representation after the call and the stream after it.
A stream whose fail bit is set transfers nothing.  Otherwise the bytes that are available,
at most `n`, are stored at the start of the object, and the fail bit is set when fewer than
`n` were available. -/
def ifstream.read (fs : ifstream) (n : Nat) : List u_char × ifstream :=
  if fs.failbit then
    (List.replicate n 0, { fs with log := fs.log ++ [⟨fs.pos, n, 0⟩] })
  else
    let got := (fs.data.drop fs.pos).take n
    (got ++ List.replicate (n - got.length) 0,
      { fs with pos := fs.pos + got.length,
                failbit := decide (got.length < n),
                log := fs.log ++ [⟨fs.pos, n, got.length⟩] })

/-- The call `fs.seekg(offset)` with a `size_t` argument.  A stream whose fail bit is set
is left alone.  The argument is converted to the signed 64-bit stream offset; a file can
be positioned at any non-negative offset, also past its end, and positioning at a negative
one fails and sets the fail bit. -/
def ifstream.seekg (fs : ifstream) (offset : Nat) : ifstream :=
  if fs.failbit then fs
  else if offset < 2 ^ 63 then { fs with pos := offset }
  else { fs with failbit := true }

/-! ## `main` -/

/-- The constant `fat16_name_size`. -/
def fat16_name_size : Nat := 8

/-- The constant `fat16_ext_size`. -/
def fat16_ext_size : Nat := 3

/-- The map `attrs`, in the iteration order of `std::map` (ascending keys). -/
def attrs : List (String × Nat) :=
  [ ("archive", 0x20),
    ("dir", 0x10),
    ("hidden", 0x02),
    ("label", 0x08),
    ("read-only", 0x01),
    ("system", 0x04) ]

/-- One line of the directory listing: the values written under the columns NAME,
DATE&TIME, SIZE and ATTRS. -/
structure Row where
  e_name : List u_char
  date_time : String
  file_size : Int
  attr_strs : List String
deriving DecidableEq, Repr

/-- The root-directory offset of line 87,
`size_t offset = (bs.rsrvd_sects + bs.fat_size * +bs.fats_n) * bs.sect_size`:
the operands are promoted to `int`, the expression is evaluated in `int`, and the result
is converted to `size_t`. -/
def root_offset (dm : DataModel) (bs : fat16_bs_t) : Nat :=
  to_size_t dm
    (int_mul (int_add (bs.rsrvd_sects dm) (int_mul (bs.fat_size dm) (bs.fats_n dm)))
      (bs.sect_size dm))

/-- The line the loop body writes for a directory entry whose normalized name is
non-empty (lines 104 to 113). -/
def entry_row (dm : DataModel) (fat_entry : fat16_entry_t) : Row :=
  let e_name := uchar2string (fat_entry.filename dm) fat16_name_size
  let e_ext := uchar2string (fat_entry.ext dm) fat16_ext_size
  let e_name := if !e_ext.isEmpty then e_name ++ (str "." ++ e_ext) else e_name
  { e_name := e_name,
    date_time := date_format (fat_entry.modify_date dm) (fat_entry.modify_time dm) ':',
    file_size := fat_entry.file_size dm,
    attr_strs := (attrs.filter (fun a => a.2 = fat_entry.attributes dm)).map (fun a => a.1) }

/-- The body of the loop of `main` (lines 97 to 113), on the stream and the lines written
so far. -/
def main_body (dm : DataModel) (st : ifstream × List Row) (_i : Nat) : ifstream × List Row :=
  let r := st.1.read (sizeof_struct dm fat16_entry_members)
  let fat_entry : fat16_entry_t := ⟨r.1⟩
  let e_name := uchar2string (fat_entry.filename dm) fat16_name_size
  if e_name.isEmpty then (r.2, st.2)
  else (r.2, st.2 ++ [entry_row dm fat_entry])

/-- The loop `for (size_t i = 0; i < files_n; ++i)` of `main`. -/
def main_loop (dm : DataModel) (fs : ifstream) (files_n : Nat) : ifstream × List Row :=
  (List.range files_n).foldl (main_body dm) (fs, [])

/-- The boot-sector object after line 84, `fs.read(reinterpret_cast<char *>(&bs), sizeof(bs))`
on the freshly opened image. -/
def read_bs (dm : DataModel) (img : List u_char) : fat16_bs_t :=
  ⟨((ifstream.opened img).read (sizeof_struct dm fat16_bs_members)).1⟩

/-- The function `main` from line 84 on, for an image that was opened: the stream at the
end and the lines of the directory listing. -/
def main (dm : DataModel) (img : List u_char) : ifstream × List Row :=
  let r := (ifstream.opened img).read (sizeof_struct dm fat16_bs_members)
  let bs : fat16_bs_t := ⟨r.1⟩
  let offset := root_offset dm bs
  let files_n := bs.root_files_n dm
  let fs := r.2.seekg offset
  main_loop dm fs files_n

/-- The directory listing `main` writes for an image. -/
def listing (dm : DataModel) (img : List u_char) : List Row := (main dm img).2

/-- The 32-byte directory slot `i` of the region starting at `offset`: the bytes of the
image at `offset + 32 * i`, with zero for the bytes beyond the end of the image. -/
def slot (img : List u_char) (offset i : Nat) : fat16_entry_t :=
  ⟨(img.drop (offset + 32 * i)).take 32 ++
    List.replicate (32 - ((img.drop (offset + 32 * i)).take 32).length) 0⟩

/-- The `read` calls made by the loop of `main`: the log of the stream at the end, without
its first event, which is the read of the boot sector at line 84. -/
def slot_reads (dm : DataModel) (img : List u_char) : List ReadEvent :=
  (main dm img).1.log.drop 1

/-! ## `print_fat16_info` -/

/-- The function `std::to_string` on an `int`. -/
def to_string (x : Int) : String := toString x

/-- The comparison `a < b` of two `std::string` values: lexicographic on the bytes. -/
def bytes_lt : List u_char → List u_char → Bool
  | _, [] => false
  | [], _ :: _ => true
  | a :: as, b :: bs => decide (a < b) || (decide (a = b) && bytes_lt as bs)

/-- The comparison `std::less<std::string>` on two keys given as literals. -/
def key_lt (a b : String) : Bool := bytes_lt (str a) (str b)

/-- Insertion of a pair into a `std::map<std::string, std::string>`, kept as the list of
its pairs in ascending key order; a key that is present already keeps its value. -/
def map_insert (kv : String × String) : List (String × String) → List (String × String)
  | [] => [kv]
  | e :: es =>
    if key_lt kv.1 e.1 then kv :: e :: es
    else if key_lt e.1 kv.1 then e :: map_insert kv es
    else e :: es

/-- The initializer list of the map `info` of `print_fat16_info` (lines 124 to 132), in
source order.  The members are promoted to `int`, and the two products are evaluated in
`int`. -/
def info_init (dm : DataModel) (fat16 : fat16_bs_t) : List (String × String) :=
  [ ("sector size", to_string (fat16.sect_size dm)),
    ("sectors number", to_string (fat16.sects_in_cluster dm)),
    ("fats number", to_string (fat16.fats_n dm)),
    ("fat size (sectors)", to_string (fat16.fat_size dm)),
    ("fat size (bytes)", to_string (int_mul (fat16.fat_size dm) (fat16.sect_size dm))),
    ("root entries", to_string (fat16.root_files_n dm)),
    ("root entries (bytes)", to_string (int_mul (fat16.root_files_n dm) (fat16.sect_size dm))),
    ("reserved sectors", to_string (fat16.rsrvd_sects dm)),
    ("signature", to_string (fat16.boot_signature dm)) ]

/-- The function `print_fat16_info`: the pairs of message and value it writes, in the order
it writes them (the iteration order of the map `info`). -/
def print_fat16_info (dm : DataModel) (fat16 : fat16_bs_t) : List (String × String) :=
  (info_init dm fat16).foldl (fun m kv => map_insert kv m) []

/-- The value `print_fat16_info` writes next to the message `msg`. -/
def info_value (dm : DataModel) (fat16 : fat16_bs_t) (msg : String) : Option String :=
  ((print_fat16_info dm fat16).find? (fun kv => !key_lt kv.1 msg && !key_lt msg kv.1)).map
    (fun kv => kv.2)

/-- The table line 85 of `main` writes for an image, `print_fat16_info(bs)`. -/
def main_info (dm : DataModel) (img : List u_char) : List (String × String) :=
  print_fat16_info dm (read_bs dm img)

/-! ## Concrete images -/

/-- A 512-byte boot sector with `bytesPerSector = 512`, `sectorsPerCluster = 1`,
`reservedSectors = 1`, `numberOfFats = 2`, `rootEntryCount = 2`, `fatSize16 = 8`, the
extended boot signature `0x29` at byte 38, the label `NO NAME` at byte 43, the type
`FAT16` at byte 54 and the signature `0xAA55` in the last two bytes. -/
def sample_bs : List u_char :=
  List.replicate 11 0 ++ [0, 2, 1, 1, 0, 2, 2, 0, 0, 0, 0, 8, 0] ++ List.replicate 14 0 ++
    [0x29, 0, 0, 0, 0] ++ str "NO NAME    " ++ str "FAT16   " ++ List.replicate 448 0 ++
    [0x55, 0xAA]

/-- A directory entry `README.TXT` with attribute `0x20`, time `0x6160` (12:11:00), date
`0x4217`, starting cluster 2 and size 5. -/
def readme_entry : List u_char :=
  str "README  " ++ str "TXT" ++ [0x20] ++ List.replicate 10 0 ++
    [0x60, 0x61, 0x17, 0x42, 2, 0, 5, 0, 0, 0]

/-- An image with the boot sector `sample_bs`, zeroed reserved and FAT regions up to byte
8704, an unused root-directory slot and the slot `readme_entry`. -/
def sample_img : List u_char :=
  sample_bs ++ List.replicate (8704 - 512) 0 ++ List.replicate 32 0 ++ readme_entry

/-- A boot sector whose header fields `sect_size`, `rsrvd_sects`, `fats_n` and `fat_size`
all hold their largest value. -/
def overflow_img : List u_char :=
  List.replicate 11 0 ++ [255, 255, 1, 255, 255, 255, 0, 0, 0, 0, 0, 255, 255] ++
    List.replicate 500 0

/-- The image `sample_img` cut 16 bytes into its second root-directory slot. -/
def truncated_img : List u_char := sample_img.take 8752

/-- The first 100 bytes of the boot sector `sample_bs`. -/
def short_img : List u_char := sample_bs.take 100

/-- A volume-label entry `MYDISK` with attribute `0x08`. -/
def label_entry : List u_char :=
  str "MYDISK  " ++ str "   " ++ [0x08] ++ List.replicate 10 0 ++
    [0x60, 0x61, 0x17, 0x42, 0, 0, 0, 0, 0, 0]

/-- A directory entry `BIG.BIN` with attribute `0x21` (read-only and archive), starting
cluster 3 and the size bytes `00 00 00 80`, the unsigned value 2147483648. -/
def big_entry : List u_char :=
  str "BIG     " ++ str "BIN" ++ [0x21] ++ List.replicate 10 0 ++
    [0x60, 0x61, 0x17, 0x42, 3, 0, 0, 0, 0, 0x80]

/-- An image with the boot sector `sample_bs` and the root-directory slots `label_entry`
and `big_entry`. -/
def attr_img : List u_char :=
  sample_bs ++ List.replicate (8704 - 512) 0 ++ label_entry ++ big_entry

/-- A 512-byte boot sector with the given values in the members `sect_size`,
`rsrvd_sects`, `fats_n` and `fat_size`, one sector per cluster, two root entries, media
`0xF8` and zero in every other byte. -/
def header_img (sect_size rsrvd_sects fats_n fat_size : Nat) : List u_char :=
  List.replicate 11 0 ++
    [Fin.ofNat (sect_size % 256), Fin.ofNat (sect_size / 256), 1,
      Fin.ofNat (rsrvd_sects % 256), Fin.ofNat (rsrvd_sects / 256), Fin.ofNat fats_n,
      2, 0, 0, 0, 0xF8, Fin.ofNat (fat_size % 256), Fin.ofNat (fat_size / 256)] ++
    List.replicate 488 0

/-! ## Lemmas -/

theorem sizeof_entry (dm : DataModel) : sizeof_struct dm fat16_entry_members = 32 := by
  simp [sizeof_struct, fat16_entry_members, Member.size, sizeof]

theorem sizeof_bs (dm : DataModel) :
    sizeof_struct dm fat16_bs_members = 500 + 3 * dm.sizeof_long := by
  simp [sizeof_struct, fat16_bs_members, Member.size, sizeof]
  omega

theorem main_loop_succ (dm : DataModel) (fs : ifstream) (k : Nat) :
    main_loop dm fs (k + 1) = main_body dm (main_loop dm fs k) k := by
  simp [main_loop, List.range_succ, List.foldl_append]

theorem main_body_fst (dm : DataModel) (st : ifstream × List Row) (i : Nat) :
    (main_body dm st i).1 = (st.1.read 32).2 := by
  unfold main_body
  rw [sizeof_entry]
  dsimp only
  split <;> rfl

theorem main_body_snd (dm : DataModel) (st : ifstream × List Row) (i : Nat) :
    (main_body dm st i).2 =
      st.2 ++ (if (uchar2string ((fat16_entry_t.mk (st.1.read 32).1).filename dm)
          fat16_name_size).isEmpty then [] else [entry_row dm ⟨(st.1.read 32).1⟩]) := by
  unfold main_body
  rw [sizeof_entry]
  dsimp only
  split <;> simp

/-- What one `read` call does to a stream whose state is described by a virtual position
`p`: the position when the stream is good, a bound on the image length when it failed. -/
theorem read_spec (fs : ifstream) (img : List u_char) (p n : Nat)
    (hd : fs.data = img) (hp : fs.failbit = false → fs.pos = p)
    (hf : fs.failbit = true → img.length ≤ p) :
    (fs.read n).1 =
        (img.drop p).take n ++ List.replicate (n - ((img.drop p).take n).length) 0 ∧
      (fs.read n).2.data = img ∧
      ((fs.read n).2.failbit = false → (fs.read n).2.pos = p + n) ∧
      ((fs.read n).2.failbit = true → img.length ≤ p + n) := by
  cases hfb : fs.failbit with
  | true =>
    have hlen := hf hfb
    have hdrop : img.drop p = [] := List.drop_eq_nil_of_le hlen
    simp [ifstream.read, hfb, hdrop, hd]
    omega
  | false =>
    have hpos := hp hfb
    subst hd
    simp only [ifstream.read, hfb, hpos]
    refine ⟨by simp, by simp, ?_, ?_⟩
    · intro h
      simp only [Bool.false_eq_true, if_false, decide_eq_false_iff_not] at h
      simp only [Bool.false_eq_true, if_false]
      simp only [List.length_take, List.length_drop] at h ⊢
      omega
    · intro h
      simp only [Bool.false_eq_true, if_false, decide_eq_true_eq] at h
      simp only [List.length_take, List.length_drop] at h
      omega

theorem read_pos (fs : ifstream) (n : Nat) (h : (fs.read n).2.failbit = false) :
    fs.failbit = false ∧ (fs.read n).2.pos = fs.pos + n := by
  cases hfb : fs.failbit with
  | true => simp [ifstream.read, hfb] at h
  | false =>
    simp only [ifstream.read, hfb, Bool.false_eq_true, if_false, decide_eq_false_iff_not,
      List.length_take, List.length_drop] at h ⊢
    exact ⟨trivial, by omega⟩

theorem read_log (fs : ifstream) (n : Nat) :
    ∃ ev : ReadEvent, (fs.read n).2.log = fs.log ++ [ev] ∧ ev.requested = n ∧
      ev.gcount ≤ n ∧ ev.pos = fs.pos ∧ (fs.failbit = true → ev.gcount = 0) := by
  cases hfb : fs.failbit with
  | true => exact ⟨⟨fs.pos, n, 0⟩, by simp [ifstream.read, hfb]⟩
  | false =>
    refine ⟨⟨fs.pos, n, ((fs.data.drop fs.pos).take n).length⟩, ?_⟩
    simp [ifstream.read, hfb]

theorem main_loop_listing (dm : DataModel) (img : List u_char) (off : Nat) (fs : ifstream)
    (hd : fs.data = img) (hp : fs.failbit = false → fs.pos = off)
    (hf : fs.failbit = true → img.length ≤ off) (k : Nat) :
    (main_loop dm fs k).1.data = img ∧
      ((main_loop dm fs k).1.failbit = false → (main_loop dm fs k).1.pos = off + 32 * k) ∧
      ((main_loop dm fs k).1.failbit = true → img.length ≤ off + 32 * k) ∧
      (main_loop dm fs k).2 =
        ((List.range k).filter (fun i =>
          !(uchar2string ((slot img off i).filename dm) fat16_name_size).isEmpty)).map
          (fun i => entry_row dm (slot img off i)) := by
  induction k with
  | zero => simpa [main_loop] using ⟨hd, hp, hf⟩
  | succ k ih =>
    obtain ⟨h1, h2, h3, h4⟩ := ih
    obtain ⟨r1, r2, r3, r4⟩ := read_spec (main_loop dm fs k).1 img (off + 32 * k) 32 h1 h2 h3
    rw [main_loop_succ]
    refine ⟨?_, ?_, ?_, ?_⟩
    · rw [main_body_fst]; exact r2
    · rw [main_body_fst]; intro h; rw [r3 h]; ring
    · rw [main_body_fst]; intro h; have := r4 h; omega
    · have r1s : fat16_entry_t.mk ((main_loop dm fs k).1.read 32).1 = slot img off k := by
        rw [r1]; rfl
      rw [main_body_snd, h4, r1s, List.range_succ, List.filter_append, List.map_append]
      congr 1
      by_cases he : (uchar2string ((slot img off k).filename dm) fat16_name_size).isEmpty
      · simp [List.filter_cons, he]
      · simp [List.filter_cons, he]

theorem main_loop_log (dm : DataModel) (fs : ifstream) (off : Nat)
    (hp : fs.failbit = false → fs.pos = off) (k : Nat) :
    ((main_loop dm fs k).1.failbit = false → (main_loop dm fs k).1.pos = off + 32 * k) ∧
      (∃ evs : List ReadEvent, (main_loop dm fs k).1.log = fs.log ++ evs ∧ evs.length = k ∧
        (∀ ev ∈ evs, ev.requested = 32 ∧ ev.gcount ≤ 32) ∧
        (∀ (j : Nat) (ev : ReadEvent), evs[j]? = some ev →
          ev.gcount = 0 ∨ ev.pos = off + 32 * j)) ∧
      (main_loop dm fs k).2.length ≤ k := by
  induction k with
  | zero => exact ⟨by simpa [main_loop] using hp, ⟨[], by simp [main_loop]⟩, by simp [main_loop]⟩
  | succ k ih =>
    obtain ⟨h1, ⟨evs, h2, h3, h4, h5⟩, h6⟩ := ih
    obtain ⟨ev, e1, e2, e3, e4, e5⟩ := read_log (main_loop dm fs k).1 32
    rw [main_loop_succ]
    refine ⟨?_, ⟨evs ++ [ev], ?_, ?_, ?_, ?_⟩, ?_⟩
    · rw [main_body_fst]
      intro h
      obtain ⟨q1, q2⟩ := read_pos _ 32 h
      rw [q2, h1 q1]
      ring
    · rw [main_body_fst, e1, h2, List.append_assoc]
    · simp [h3]
    · intro x hx
      rcases List.mem_append.1 hx with hx | hx
      · exact h4 x hx
      · rw [List.mem_singleton.1 hx]; exact ⟨e2, e3⟩
    · intro j x hj
      by_cases hjk : j < evs.length
      · rw [List.getElem?_append_left hjk] at hj
        exact h5 j x hj
      · have hjk2 : evs.length ≤ j := Nat.le_of_not_lt hjk
        rw [List.getElem?_append_right hjk2] at hj
        have hj0 : j - evs.length = 0 := by
          by_contra hne
          have : 1 ≤ j - evs.length := Nat.one_le_iff_ne_zero.2 hne
          simp [List.getElem?_eq_none, this] at hj
        rw [hj0] at hj
        simp at hj
        subst hj
        have hjeq : j = k := by omega
        subst hjeq
        cases hfb : (main_loop dm fs j).1.failbit with
        | true => exact Or.inl (e5 hfb)
        | false => exact Or.inr (by rw [e4]; exact h1 hfb)
    · rw [main_body_snd]
      simp only [List.length_append]
      split <;> simp <;> omega


theorem le_value_lt (l : List u_char) : le_value l < 256 ^ l.length := by
  induction l with
  | nil => simp [le_value]
  | cons b bs ih =>
    have hb := b.isLt
    simp only [le_value, List.length_cons, pow_succ]
    omega

theorem root_files_n_le (dm : DataModel) (bs : fat16_bs_t) : bs.root_files_n dm ≤ 65535 := by
  have h := le_value_lt (member_bytes dm fat16_bs_members bs.raw "root_files_n")
  have hl : (member_bytes dm fat16_bs_members bs.raw "root_files_n").length ≤ 2 := by
    simp [member_bytes, member_size, offsetof, fat16_bs_members, Member.size, sizeof]
  have hp : 256 ^ (member_bytes dm fat16_bs_members bs.raw "root_files_n").length ≤ 256 ^ 2 :=
    Nat.pow_le_pow_right (by decide) hl
  simp only [fat16_bs_t.root_files_n, fat16_bs_t.field]
  omega

theorem main_eq (dm : DataModel) (img : List u_char) :
    main dm img =
      main_loop dm
        (((ifstream.opened img).read (sizeof_struct dm fat16_bs_members)).2.seekg
          (root_offset dm (read_bs dm img)))
        ((read_bs dm img).root_files_n dm) := rfl

theorem seekg_spec (fs : ifstream) (off : Nat) :
    (fs.seekg off).data = fs.data ∧ (fs.seekg off).log = fs.log ∧
      ((fs.seekg off).failbit = false → (fs.seekg off).pos = off) ∧
      (fs.failbit = false → (fs.seekg off).failbit = true → 2 ^ 63 ≤ off) := by
  unfold ifstream.seekg
  cases hfb : fs.failbit with
  | true => simp [hfb]
  | false =>
    by_cases h : off < 2 ^ 63
    · simp only [Bool.false_eq_true, if_false, if_pos h]
      simp
    · simp only [Bool.false_eq_true, if_false, if_neg h]
      simp only [true_and, Bool.true_eq_false, false_implies, forall_const]
      omega

theorem main_listing_eq (dm : DataModel) (img : List u_char)
    (hbs : sizeof_struct dm fat16_bs_members ≤ img.length) (hmax : img.length < 2 ^ 63) :
    listing dm img =
      ((List.range ((read_bs dm img).root_files_n dm)).filter (fun i =>
        !(uchar2string ((slot img (root_offset dm (read_bs dm img)) i).filename dm)
          fat16_name_size).isEmpty)).map
        (fun i => entry_row dm (slot img (root_offset dm (read_bs dm img)) i)) := by
  obtain ⟨s1, _, s3, s4⟩ :=
    seekg_spec ((ifstream.opened img).read (sizeof_struct dm fat16_bs_members)).2
      (root_offset dm (read_bs dm img))
  obtain ⟨_, r2, r3, r4⟩ := read_spec (ifstream.opened img) img 0
    (sizeof_struct dm fat16_bs_members) rfl (fun _ => rfl) (fun h => by simp [ifstream.opened] at h)
  have hgood : ((ifstream.opened img).read (sizeof_struct dm fat16_bs_members)).2.failbit
      = false := by
    simp only [ifstream.read, ifstream.opened, Bool.false_eq_true, if_false,
      decide_eq_false_iff_not, List.length_take, List.length_drop]
    omega
  have := main_loop_listing dm img (root_offset dm (read_bs dm img)) _ (s1.trans r2) s3
    (fun h => by have := s4 hgood h; omega) ((read_bs dm img).root_files_n dm)
  rw [listing, main_eq]
  exact this.2.2.2


theorem find_if_uchar2string (l acc : List u_char) :
    find_if uchar2string_pred l acc =
      acc ++ l.takeWhile (fun c => decide (¬(c = 0 ∨ c = 32))) := by
  induction l generalizing acc with
  | nil => simp [find_if]
  | cons c rest ih =>
    rw [List.takeWhile_cons]
    by_cases h : c = 0 ∨ c = 32
    · simp only [find_if, uchar2string_pred, if_pos h]
      simp [h]
    · simp only [find_if, uchar2string_pred, if_neg h]
      rw [ih]
      simp [h]

theorem uchar2string_eq_takeWhile (s : List u_char) (size : Nat) :
    uchar2string s size = (s.take size).takeWhile (fun c => decide (¬(c = 0 ∨ c = 32))) := by
  simp [uchar2string, find_if_uchar2string]

theorem takeWhile_split {α : Type} (p : α → Bool) (l : List α) :
    ∃ rest, l = l.takeWhile p ++ rest ∧ (∀ c ∈ l.takeWhile p, p c = true) ∧
      (rest = [] ∨ ∃ c tl, rest = c :: tl ∧ p c = false) := by
  refine ⟨l.dropWhile p, (List.takeWhile_append_dropWhile p l).symm, ?_, ?_⟩
  · intro c hc
    exact List.mem_takeWhile_imp hc
  · cases hd : l.dropWhile p with
    | nil => exact Or.inl rfl
    | cons c tl =>
      refine Or.inr ⟨c, tl, rfl, ?_⟩
      have := List.head_dropWhile_not p l (by simp [hd])
      simpa [hd] using this

theorem main_loop_full (dm : DataModel) (fs : ifstream) (off : Nat)
    (hfb : fs.failbit = false) (hpos : fs.pos = off) (k : Nat)
    (hlen : off + 32 * k ≤ fs.data.length) :
    (main_loop dm fs k).1.failbit = false ∧ (main_loop dm fs k).1.pos = off + 32 * k ∧
      (main_loop dm fs k).1.data = fs.data ∧
      (main_loop dm fs k).1.log =
        fs.log ++ (List.range k).map (fun j => (⟨off + 32 * j, 32, 32⟩ : ReadEvent)) := by
  induction k with
  | zero => simp [main_loop, hfb, hpos]
  | succ k ih =>
    obtain ⟨h1, h2, h3, h4⟩ := ih (by omega)
    rw [main_loop_succ, main_body_fst]
    have hl : (((main_loop dm fs k).1.data.drop (main_loop dm fs k).1.pos).take 32).length = 32 := by
      rw [List.length_take, List.length_drop, h2, h3]
      omega
    simp only [ifstream.read, h1, Bool.false_eq_true, if_false, hl]
    refine ⟨by simp, by rw [h2]; ring, h3, ?_⟩
    rw [h4, h2, List.range_succ, List.map_append, List.append_assoc]
    rfl

theorem le_value_take_one (t : List u_char) : le_value (t.take 1) = (t.getD 0 0).val := by
  cases t with
  | nil => simp [le_value]
  | cons a t => simp [le_value]

theorem le_value_take_two (t : List u_char) :
    le_value (t.take 2) = (t.getD 0 0).val + 256 * (t.getD 1 0).val := by
  match t with
  | [] => simp [le_value]
  | [a] => simp [le_value]
  | a :: b :: t => simp [le_value]

theorem le_value_take_four (t : List u_char) :
    le_value (t.take 4) =
      (t.getD 0 0).val + 256 * (t.getD 1 0).val + 65536 * (t.getD 2 0).val +
        16777216 * (t.getD 3 0).val := by
  match t with
  | [] => simp [le_value]
  | [a] => simp [le_value]
  | [a, b] => simp [le_value]
  | [a, b, c] => simp [le_value]; ring
  | a :: b :: c :: d :: t => simp [le_value]; ring

theorem getD_drop_zero (l : List u_char) (k j : Nat) :
    (l.drop k).getD j 0 = l.getD (k + j) 0 := by
  simp [List.getD_eq_getElem?_getD, List.getElem?_drop]

theorem read_getD (img : List u_char) (n i : Nat) (h : i < n) :
    ((ifstream.opened img).read n).1.getD i 0 = img.getD i 0 := by
  simp only [ifstream.read, ifstream.opened, Bool.false_eq_true, if_false, List.drop_zero]
  by_cases hi : i < img.length
  · have hi2 : i < (img.take n).length := by rw [List.length_take]; omega
    rw [List.getD_append _ _ _ _ hi2]
    simp [List.getD_eq_getElem?_getD, List.getElem?_take_of_lt h]
  · have hi2 : (img.take n).length ≤ i := by rw [List.length_take]; omega
    rw [List.getD_append_right _ _ _ _ hi2]
    rw [List.getD_eq_default img 0 (by omega)]
    simp only [List.getD_eq_getElem?_getD, List.getElem?_replicate]
    split <;> rfl

theorem seekg_good (fs : ifstream) (off : Nat) (hfb : fs.failbit = false)
    (hoff : off < 2 ^ 63) :
    (fs.seekg off).failbit = false ∧ (fs.seekg off).pos = off ∧
      (fs.seekg off).data = fs.data ∧ (fs.seekg off).log = fs.log := by
  simp only [ifstream.seekg, hfb, Bool.false_eq_true, if_false, if_pos hoff]
  simp [hfb]

theorem read_good (img : List u_char) (n : Nat) (h : n ≤ img.length) :
    ((ifstream.opened img).read n).2.failbit = false ∧
      ((ifstream.opened img).read n).2.data = img ∧
      ((ifstream.opened img).read n).2.log = [⟨0, n, n⟩] := by
  have hl : (img.take n).length = n := by rw [List.length_take]; omega
  simp only [ifstream.read, ifstream.opened, Bool.false_eq_true, if_false, List.drop_zero, hl]
  simp

theorem slot_reads_full (dm : DataModel) (img : List u_char)
    (hbs : sizeof_struct dm fat16_bs_members ≤ img.length) (hmax : img.length < 2 ^ 63)
    (hdir : root_offset dm (read_bs dm img) + 32 * (read_bs dm img).root_files_n dm
      ≤ img.length) :
    slot_reads dm img =
      (List.range ((read_bs dm img).root_files_n dm)).map
        (fun j => (⟨root_offset dm (read_bs dm img) + 32 * j, 32, 32⟩ : ReadEvent)) := by
  obtain ⟨r1, r2, r3⟩ := read_good img _ hbs
  obtain ⟨s1, s2, s3, s4⟩ := seekg_good _ (root_offset dm (read_bs dm img)) r1 (by omega)
  obtain ⟨_, _, _, m4⟩ := main_loop_full dm _ (root_offset dm (read_bs dm img)) s1 s2
    ((read_bs dm img).root_files_n dm) (by rw [s3, r2]; exact hdir)
  rw [slot_reads, main_eq, m4, s4, r3]
  simp

theorem date_format_fields_eq (date time : Nat) :
    date_format_fields date time =
      [1980 + date / 512, date / 32 % 16, date % 32, time % 32, time / 32 % 64, time / 2048] := by
  simp only [date_format_fields, Nat.shiftRight_eq_div_pow]
  have h4 := Nat.and_pow_two_sub_one_eq_mod (date / 2 ^ 5) 4
  have h5 := Nat.and_pow_two_sub_one_eq_mod date 5
  have t5 := Nat.and_pow_two_sub_one_eq_mod time 5
  have t6 := Nat.and_pow_two_sub_one_eq_mod (time / 2 ^ 5) 6
  norm_num at h4 h5 t5 t6 ⊢
  exact ⟨h4, h5, t5, t6⟩

theorem bs_field_two (dm : DataModel) (img : List u_char) (x : String) (k : Nat)
    (hk : offsetof dm fat16_bs_members x = k) (hs : member_size dm fat16_bs_members x = 2)
    (hlt : k + 1 < sizeof_struct dm fat16_bs_members) :
    (read_bs dm img).field dm x = (img.getD k 0).val + 256 * (img.getD (k + 1) 0).val := by
  rw [fat16_bs_t.field, member_bytes, hk, hs, le_value_take_two, getD_drop_zero,
    getD_drop_zero, read_bs, read_getD img _ _ (by omega), read_getD img _ _ (by omega),
    Nat.add_zero]

theorem bs_field_one (dm : DataModel) (img : List u_char) (x : String) (k : Nat)
    (hk : offsetof dm fat16_bs_members x = k) (hs : member_size dm fat16_bs_members x = 1)
    (hlt : k < sizeof_struct dm fat16_bs_members) :
    (read_bs dm img).field dm x = (img.getD k 0).val := by
  rw [fat16_bs_t.field, member_bytes, hk, hs, le_value_take_one, getD_drop_zero,
    read_bs, read_getD img _ _ (by omega), Nat.add_zero]

theorem int_wrap_emod (x : Int) : int_wrap x % 4294967296 = x % 4294967296 := by
  unfold int_wrap
  omega

theorem int_wrap_range (x : Int) : INT_MIN ≤ int_wrap x ∧ int_wrap x ≤ INT_MAX := by
  unfold int_wrap INT_MIN INT_MAX
  omega

theorem slot_getD (img : List u_char) (off i j : Nat) (h : j < 32) :
    (slot img off i).raw.getD j 0 = img.getD (off + 32 * i + j) 0 := by
  have := read_getD (img.drop (off + 32 * i)) 32 j h
  simp only [ifstream.read, ifstream.opened, Bool.false_eq_true, if_false, List.drop_zero]
    at this
  rw [slot, this, getD_drop_zero]

theorem int_wrap_of_range (x : Int) (h0 : INT_MIN ≤ x) (h1 : x ≤ INT_MAX) : int_wrap x = x := by
  unfold int_wrap
  unfold INT_MIN at h0
  unfold INT_MAX at h1
  omega

theorem bs_field_lt (dm : DataModel) (bs : fat16_bs_t) (x : String) :
    bs.field dm x < 256 ^ member_size dm fat16_bs_members x := by
  have h := le_value_lt (member_bytes dm fat16_bs_members bs.raw x)
  have hl : (member_bytes dm fat16_bs_members bs.raw x).length
      ≤ member_size dm fat16_bs_members x := by
    simp only [member_bytes, List.length_take]
    omega
  exact lt_of_lt_of_le h (Nat.pow_le_pow_right (by decide) hl)

theorem bs_header_bounds (dm : DataModel) (bs : fat16_bs_t) :
    bs.rsrvd_sects dm ≤ 65535 ∧ bs.fat_size dm ≤ 65535 ∧ bs.fats_n dm ≤ 255 ∧
      bs.sect_size dm ≤ 65535 := by
  have h1 := bs_field_lt dm bs "rsrvd_sects"
  have h2 := bs_field_lt dm bs "fat_size"
  have h3 := bs_field_lt dm bs "fats_n"
  have h4 := bs_field_lt dm bs "sect_size"
  simp [member_size, fat16_bs_members, Member.size, sizeof] at h1 h2 h3 h4
  simp only [fat16_bs_t.rsrvd_sects, fat16_bs_t.fat_size, fat16_bs_t.fats_n,
    fat16_bs_t.sect_size]
  omega

theorem to_size_t_of_small (dm : DataModel) (x : Nat) (hdm : 4 ≤ dm.sizeof_long)
    (hx : x < 2 ^ 31) : to_size_t dm (x : Int) = x := by
  have hp : 2 ^ 32 ≤ 2 ^ (8 * dm.sizeof_long) := Nat.pow_le_pow_right (by decide) (by omega)
  have hlt : x < 2 ^ (8 * dm.sizeof_long) := by omega
  unfold to_size_t
  have : ((x : Int) % (2 ^ (8 * dm.sizeof_long) : Int)) = ((x % 2 ^ (8 * dm.sizeof_long) : Nat) : Int) := by
    push_cast
    rfl
  rw [this, Nat.mod_eq_of_lt hlt]
  simp

theorem file_size_bytes (dm : DataModel) (e : fat16_entry_t) :
    e.bytes dm "file_size" = (e.raw.drop 28).take 4 := by
  simp [fat16_entry_t.bytes, member_bytes, member_size, offsetof,
    fat16_entry_members, Member.size, sizeof]

theorem attributes_lt (dm : DataModel) (e : fat16_entry_t) : e.attributes dm < 256 := by
  have hb : e.bytes dm "attributes" = (e.raw.drop 11).take 1 := by
    simp [fat16_entry_t.bytes, member_bytes, member_size, offsetof,
      fat16_entry_members, Member.size, sizeof]
  have h := le_value_lt ((e.raw.drop 11).take 1)
  have hl : ((e.raw.drop 11).take 1).length ≤ 1 := by simp
  have hp : 256 ^ ((e.raw.drop 11).take 1).length ≤ 256 ^ 1 :=
    Nat.pow_le_pow_right (by decide) hl
  rw [fat16_entry_t.attributes, hb]
  omega

theorem info_map_order (v1 v2 v3 v4 v5 v6 v7 v8 v9 : String) :
    List.foldl (fun m kv => map_insert kv m) []
      [ ("sector size", v1), ("sectors number", v2), ("fats number", v3),
        ("fat size (sectors)", v4), ("fat size (bytes)", v5), ("root entries", v6),
        ("root entries (bytes)", v7), ("reserved sectors", v8), ("signature", v9) ] =
      [ ("fat size (bytes)", v5), ("fat size (sectors)", v4), ("fats number", v3),
        ("reserved sectors", v8), ("root entries", v6), ("root entries (bytes)", v7),
        ("sector size", v1), ("sectors number", v2), ("signature", v9) ] := by
  rfl

theorem info_map_find (v1 v2 v3 v4 v5 v6 v7 v8 v9 : String) :
    (List.find? (fun kv : String × String =>
        !key_lt kv.1 "root entries (bytes)" && !key_lt "root entries (bytes)" kv.1)
      [ ("fat size (bytes)", v5), ("fat size (sectors)", v4), ("fats number", v3),
        ("reserved sectors", v8), ("root entries", v6), ("root entries (bytes)", v7),
        ("sector size", v1), ("sectors number", v2), ("signature", v9) ]).map
      (fun kv => kv.2) = some v7 := by
  rfl

theorem info_value_root_entries_bytes (dm : DataModel) (bs : fat16_bs_t) :
    info_value dm bs "root entries (bytes)" =
      some (to_string (int_mul (bs.root_files_n dm) (bs.sect_size dm))) := by
  unfold info_value print_fat16_info info_init
  rw [info_map_order]
  exact info_map_find _ _ _ _ _ _ _ _ _

theorem attrs_filter_cases (a : Nat) :
    (attrs.filter (fun p => p.2 = a)).map (fun p => p.1) =
      (if a = 0x20 then ["archive"]
       else if a = 0x10 then ["dir"]
       else if a = 0x02 then ["hidden"]
       else if a = 0x08 then ["label"]
       else if a = 0x01 then ["read-only"]
       else if a = 0x04 then ["system"]
       else []) ∧
    ((attrs.filter (fun p => p.2 = a)).map (fun p => p.1)).length ≤ 1 ∧
    (attrs.map (fun p => decide (p.1 ∈ (attrs.filter (fun p => p.2 = a)).map (fun p => p.1))) =
      attrs.map (fun p => decide (a = p.2))) := by
  by_cases h1 : a = 0x20
  · subst h1; decide
  by_cases h2 : a = 0x10
  · subst h2; decide
  by_cases h3 : a = 0x02
  · subst h3; decide
  by_cases h4 : a = 0x08
  · subst h4; decide
  by_cases h5 : a = 0x01
  · subst h5; decide
  by_cases h6 : a = 0x04
  · subst h6; decide
  have hl : attrs.filter (fun p => p.2 = a) = [] := by
    simp [attrs, List.filter_cons, Ne.symm h1, Ne.symm h2, Ne.symm h3, Ne.symm h4, Ne.symm h5,
      Ne.symm h6]
  rw [hl]
  simp [attrs, h1, h2, h3, h4, h5, h6]

theorem root_offset_of_small (dm : DataModel) (bs : fat16_bs_t) (hdm : 4 ≤ dm.sizeof_long)
    (h : (bs.rsrvd_sects dm + bs.fat_size dm * bs.fats_n dm) * bs.sect_size dm < 2 ^ 31) :
    int_mul (bs.fat_size dm) (bs.fats_n dm) = ((bs.fat_size dm * bs.fats_n dm : Nat) : Int) ∧
    int_add (bs.rsrvd_sects dm) (int_mul (bs.fat_size dm) (bs.fats_n dm)) =
      ((bs.rsrvd_sects dm + bs.fat_size dm * bs.fats_n dm : Nat) : Int) ∧
    int_mul (int_add (bs.rsrvd_sects dm) (int_mul (bs.fat_size dm) (bs.fats_n dm)))
        (bs.sect_size dm) =
      (((bs.rsrvd_sects dm + bs.fat_size dm * bs.fats_n dm) * bs.sect_size dm : Nat) : Int) ∧
    root_offset dm bs = (bs.rsrvd_sects dm + bs.fat_size dm * bs.fats_n dm) * bs.sect_size dm := by
  obtain ⟨b1, b2, b3, _⟩ := bs_header_bounds dm bs
  have hp : bs.fat_size dm * bs.fats_n dm ≤ 65535 * 255 := Nat.mul_le_mul b2 b3
  have e1 : int_mul (bs.fat_size dm) (bs.fats_n dm)
      = ((bs.fat_size dm * bs.fats_n dm : Nat) : Int) := by
    unfold int_mul
    rw [← Int.natCast_mul]
    exact int_wrap_of_range _ (by unfold INT_MIN; omega) (by unfold INT_MAX; omega)
  have e2 : int_add (bs.rsrvd_sects dm) (int_mul (bs.fat_size dm) (bs.fats_n dm))
      = ((bs.rsrvd_sects dm + bs.fat_size dm * bs.fats_n dm : Nat) : Int) := by
    unfold int_add
    rw [e1, ← Int.natCast_add]
    exact int_wrap_of_range _ (by unfold INT_MIN; omega) (by unfold INT_MAX; omega)
  have e3 : int_mul (int_add (bs.rsrvd_sects dm) (int_mul (bs.fat_size dm) (bs.fats_n dm)))
        (bs.sect_size dm)
      = (((bs.rsrvd_sects dm + bs.fat_size dm * bs.fats_n dm) * bs.sect_size dm : Nat) : Int) := by
    rw [e2]
    unfold int_mul
    rw [← Int.natCast_mul]
    exact int_wrap_of_range _ (by unfold INT_MIN; omega) (by unfold INT_MAX; omega)
  refine ⟨e1, e2, e3, ?_⟩
  rw [root_offset, e3]
  exact to_size_t_of_small dm _ hdm h

theorem uchar2string_eq_nil_iff (s : List u_char) (size : Nat) (hs : s ≠ []) (hn : 0 < size) :
    uchar2string s size = [] ↔ (s.getD 0 0 = 0 ∨ s.getD 0 0 = 32) := by
  rw [uchar2string_eq_takeWhile]
  cases s with
  | nil => exact absurd rfl hs
  | cons c rest =>
    obtain ⟨n, rfl⟩ : ∃ n, size = n + 1 := ⟨size - 1, by omega⟩
    rw [List.take_succ_cons, List.takeWhile_cons]
    by_cases h : c = 0 ∨ c = 32
    · simp [h]
    · simp [h]

theorem slot_filename_ne_nil (dm : DataModel) (img : List u_char) (off i : Nat) :
    (slot img off i).filename dm ≠ [] ∧
      ((slot img off i).filename dm).getD 0 0 = img.getD (off + 32 * i) 0 := by
  have hf : (slot img off i).filename dm = (slot img off i).raw.take 8 := by
    simp [fat16_entry_t.filename, fat16_entry_t.bytes, member_bytes, member_size, offsetof,
      fat16_entry_members, Member.size, sizeof]
  have hl : (slot img off i).raw.length = 32 := by
    simp only [slot, List.length_append, List.length_replicate, List.length_take]
    omega
  have h0 := slot_getD img off i 0 (by decide)
  simp only [Nat.add_zero] at h0
  rw [hf]
  constructor
  · intro h
    have := congrArg List.length h
    rw [List.length_take, hl] at this
    simp at this
  · rw [← h0, List.getD_eq_getElem?_getD, List.getD_eq_getElem?_getD,
      List.getElem?_take_of_lt (by decide)]

theorem not_isEmpty_eq_decide (l : List u_char) (b : u_char)
    (h : l = [] ↔ (b = 0 ∨ b = 32)) : (!l.isEmpty) = decide (b ≠ 0 ∧ b ≠ 32) := by
  cases l with
  | nil =>
    have hb := h.1 rfl
    simp only [List.isEmpty_nil, Bool.not_true]
    symm
    rw [decide_eq_false_iff_not]
    intro hc
    rcases hb with hb | hb
    · exact hc.1 hb
    · exact hc.2 hb
  | cons a t =>
    have hb : ¬ (b = 0 ∨ b = 32) := fun hc => List.cons_ne_nil a t (h.2 hc)
    simp only [List.isEmpty_cons, Bool.not_false]
    symm
    rw [decide_eq_true_eq]
    exact ⟨fun h0 => hb (Or.inl h0), fun h1 => hb (Or.inr h1)⟩

theorem zero_entry_name (dm : DataModel) :
    uchar2string ((fat16_entry_t.mk (List.replicate 32 0)).filename dm) fat16_name_size = [] := by
  have hf : (fat16_entry_t.mk (List.replicate 32 0)).filename dm
      = (List.replicate 32 (0 : u_char)).take 8 := by
    simp [fat16_entry_t.filename, fat16_entry_t.bytes, member_bytes, member_size, offsetof,
      fat16_entry_members, Member.size, sizeof]
  rw [hf]
  decide

theorem main_body_failed (dm : DataModel) (fs : ifstream) (rows : List Row) (i : Nat)
    (h : fs.failbit = true) :
    main_body dm (fs, rows) i = ({ fs with log := fs.log ++ [⟨fs.pos, 32, 0⟩] }, rows) := by
  have hr : fs.read 32 = (List.replicate 32 0, { fs with log := fs.log ++ [⟨fs.pos, 32, 0⟩] }) := by
    simp [ifstream.read, h]
  apply Prod.ext
  · rw [main_body_fst]
    simp only [hr]
  · rw [main_body_snd]
    simp only [hr, zero_entry_name, List.isEmpty_nil, if_true, List.append_nil]

theorem foldl_failed (dm : DataModel) (l : List Nat) (fs : ifstream) (rows : List Row)
    (h : fs.failbit = true) :
    l.foldl (main_body dm) (fs, rows) =
      ({ fs with log := fs.log ++ List.replicate l.length ⟨fs.pos, 32, 0⟩ }, rows) := by
  induction l generalizing fs with
  | nil => simp
  | cons a l ih =>
    rw [List.foldl_cons, main_body_failed dm fs rows a h,
      ih ⟨fs.data, fs.pos, fs.failbit, fs.log ++ [(⟨fs.pos, 32, 0⟩ : ReadEvent)]⟩ h]
    simp [List.replicate_succ]

theorem main_short_bs (dm : DataModel) (img : List u_char)
    (h : img.length < sizeof_struct dm fat16_bs_members) :
    (read_bs dm img).raw =
        img ++ List.replicate (sizeof_struct dm fat16_bs_members - img.length) 0 ∧
      (main dm img).1.failbit = true ∧
      listing dm img = [] ∧
      slot_reads dm img =
        List.replicate ((read_bs dm img).root_files_n dm) ⟨img.length, 32, 0⟩ := by
  have ht : img.take (sizeof_struct dm fat16_bs_members) = img :=
    List.take_of_length_le (by omega)
  have hr : (ifstream.opened img).read (sizeof_struct dm fat16_bs_members) =
      (img ++ List.replicate (sizeof_struct dm fat16_bs_members - img.length) 0,
        ⟨img, img.length, true, [⟨0, sizeof_struct dm fat16_bs_members, img.length⟩]⟩) := by
    simp [ifstream.read, ifstream.opened, ht, h]
  have hs : ((ifstream.opened img).read (sizeof_struct dm fat16_bs_members)).2.seekg
      (root_offset dm (read_bs dm img)) =
      ⟨img, img.length, true, [⟨0, sizeof_struct dm fat16_bs_members, img.length⟩]⟩ := by
    rw [hr]
    simp [ifstream.seekg]
  have hm : main dm img =
      (⟨img, img.length, true, [⟨0, sizeof_struct dm fat16_bs_members, img.length⟩] ++
        List.replicate ((read_bs dm img).root_files_n dm) ⟨img.length, 32, 0⟩⟩, []) := by
    rw [main_eq, hs, main_loop, foldl_failed dm _ _ _ rfl]
    simp
  refine ⟨?_, ?_, ?_, ?_⟩
  · rw [read_bs, hr]
  · rw [hm]
  · rw [listing, hm]
  · rw [slot_reads, hm]
    simp

theorem read_short (fs : ifstream) (n : Nat) (hfb : fs.failbit = false)
    (h1 : fs.pos ≤ fs.data.length) (h2 : fs.data.length < fs.pos + n) :
    (fs.read n).2 =
      ⟨fs.data, fs.data.length, true, fs.log ++ [⟨fs.pos, n, fs.data.length - fs.pos⟩]⟩ := by
  have hl : ((fs.data.drop fs.pos).take n).length = fs.data.length - fs.pos := by
    rw [List.length_take, List.length_drop]
    omega
  simp only [ifstream.read, hfb, Bool.false_eq_true, if_false, hl]
  have hd : decide (fs.data.length - fs.pos < n) = true := by
    rw [decide_eq_true_eq]
    omega
  have hp : fs.pos + (fs.data.length - fs.pos) = fs.data.length := by omega
  rw [hd, hp]

theorem main_loop_split (dm : DataModel) (fs : ifstream) (a b : Nat) :
    main_loop dm fs (a + b) =
      ((List.range b).map (a + ·)).foldl (main_body dm) (main_loop dm fs a) := by
  simp only [main_loop, List.range_add, List.foldl_append]

theorem main_short_slot (dm : DataModel) (img : List u_char) (k : Nat)
    (hbs : sizeof_struct dm fat16_bs_members ≤ img.length) (hmax : img.length < 2 ^ 63)
    (hk : k < (read_bs dm img).root_files_n dm)
    (h1 : root_offset dm (read_bs dm img) + 32 * k ≤ img.length)
    (h2 : img.length < root_offset dm (read_bs dm img) + 32 * (k + 1)) :
    slot_reads dm img =
        (List.range k).map
          (fun j => (⟨root_offset dm (read_bs dm img) + 32 * j, 32, 32⟩ : ReadEvent)) ++
        [⟨root_offset dm (read_bs dm img) + 32 * k, 32,
          img.length - (root_offset dm (read_bs dm img) + 32 * k)⟩] ++
        List.replicate ((read_bs dm img).root_files_n dm - (k + 1)) ⟨img.length, 32, 0⟩ ∧
      (main dm img).1.failbit = true ∧
      listing dm img =
        ((List.range (k + 1)).filter (fun i =>
          !(uchar2string ((slot img (root_offset dm (read_bs dm img)) i).filename dm)
            fat16_name_size).isEmpty)).map
          (fun i => entry_row dm (slot img (root_offset dm (read_bs dm img)) i)) := by
  obtain ⟨r1, r2, r3⟩ := read_good img _ hbs
  obtain ⟨s1, s2, s3, s4⟩ := seekg_good _ (root_offset dm (read_bs dm img)) r1 (by omega)
  generalize hfs : ((ifstream.opened img).read (sizeof_struct dm fat16_bs_members)).2.seekg
    (root_offset dm (read_bs dm img)) = fs0 at s1 s2 s3 s4
  rw [r2] at s3
  rw [r3] at s4
  obtain ⟨m1, m2, m3, m4⟩ := main_loop_full dm fs0 (root_offset dm (read_bs dm img)) s1 s2 k
    (by rw [s3]; exact h1)
  obtain ⟨_, _, _, l4⟩ := main_loop_listing dm img (root_offset dm (read_bs dm img)) fs0 s3
    (fun _ => s2) (fun h => by rw [s1] at h; exact absurd h (by decide)) (k + 1)
  have hS1 : (main_loop dm fs0 (k + 1)).1 =
      ⟨img, img.length, true,
        fs0.log ++ (List.range k).map
            (fun j => (⟨root_offset dm (read_bs dm img) + 32 * j, 32, 32⟩ : ReadEvent)) ++
          [⟨root_offset dm (read_bs dm img) + 32 * k, 32,
            img.length - (root_offset dm (read_bs dm img) + 32 * k)⟩]⟩ := by
    rw [main_loop_succ, main_body_fst,
      read_short _ 32 m1 (by rw [m2, m3, s3]; exact h1) (by rw [m2, m3, s3]; omega),
      m2, m3, m4, s3]
  have hn : (read_bs dm img).root_files_n dm =
      (k + 1) + ((read_bs dm img).root_files_n dm - (k + 1)) := by omega
  have hmain : main dm img =
      (⟨img, img.length, true,
        fs0.log ++ (List.range k).map
            (fun j => (⟨root_offset dm (read_bs dm img) + 32 * j, 32, 32⟩ : ReadEvent)) ++
          [⟨root_offset dm (read_bs dm img) + 32 * k, 32,
            img.length - (root_offset dm (read_bs dm img) + 32 * k)⟩] ++
          List.replicate ((read_bs dm img).root_files_n dm - (k + 1)) ⟨img.length, 32, 0⟩⟩,
        (main_loop dm fs0 (k + 1)).2) := by
    rw [main_eq, hfs]
    conv_lhs => rw [hn]
    rw [main_loop_split]
    have hpair : main_loop dm fs0 (k + 1) =
        ((main_loop dm fs0 (k + 1)).1, (main_loop dm fs0 (k + 1)).2) := rfl
    rw [hpair, hS1, foldl_failed dm _ _ _ rfl]
    simp
  refine ⟨?_, ?_, ?_⟩
  · rw [slot_reads, hmain, s4]
    simp
  · rw [hmain]
  · rw [listing, hmain]
    exact l4

theorem slot_short (img : List u_char) (off k : Nat) (h1 : off + 32 * k ≤ img.length)
    (h2 : img.length < off + 32 * (k + 1)) :
    (slot img off k).raw =
      img.drop (off + 32 * k) ++ List.replicate (32 - (img.length - (off + 32 * k))) 0 := by
  have ht : (img.drop (off + 32 * k)).take 32 = img.drop (off + 32 * k) :=
    List.take_of_length_le (by rw [List.length_drop]; omega)
  simp only [slot, ht, List.length_drop]

/-! ## The claims -/

/-- C1: the root-directory offset of `main` is evaluated in 32-bit `int` before it is
stored in the `size_t` variable.  For the header of the specification's example
(512, 1, 8, 2) the offset is 8704.  For the boot sector `overflow_img`, whose fields are
`rsrvd_sects = 65535`, `fat_size = 65535`, `fats_n = 255`, `sect_size = 65535`, the exact
product 1099478073600 exceeds `INT_MAX`, the `int` expression wraps, and the offset `main`
seeks to is 18446744073675997440, not the exact product. -/
theorem root_offset_wraps_at_max_header :
    root_offset LP64 (read_bs LP64 sample_img) = 8704 ∧
    (read_bs LP64 overflow_img).rsrvd_sects LP64 = 65535 ∧
    (read_bs LP64 overflow_img).fat_size LP64 = 65535 ∧
    (read_bs LP64 overflow_img).fats_n LP64 = 255 ∧
    (read_bs LP64 overflow_img).sect_size LP64 = 65535 ∧
    (65535 + 65535 * 255) * 65535 = 1099478073600 ∧
    INT_MAX < 1099478073600 ∧
    root_offset LP64 (read_bs LP64 overflow_img) = 18446744073675997440 ∧
    root_offset LP64 (read_bs LP64 overflow_img) ≠ (65535 + 65535 * 255) * 65535 := by
  decide

/-- C2: for every byte field `s`, `uchar2string(s, length of s)` is the prefix of `s` that
ends strictly before the first byte equal to `0x00` or `0x20`: `s` splits into the result,
none of whose bytes is `0x00` or `0x20`, and a rest that is empty (no such byte occurs, the
whole field is returned) or starts with `0x00` or `0x20`.  The 8-byte field `README` padded
with two spaces gives `README`, and the 3-byte field `TXT` gives `TXT`. -/
theorem uchar2string_stops_at_first_nul_or_space :
    (∀ s : List u_char, ∃ rest : List u_char,
      s = uchar2string s s.length ++ rest ∧
      (∀ c ∈ uchar2string s s.length, c ≠ 0 ∧ c ≠ 32) ∧
      (rest = [] ∨ ∃ c tl, rest = c :: tl ∧ (c = 0 ∨ c = 32))) ∧
    uchar2string (str "README  ") 8 = str "README" ∧
    uchar2string (str "TXT") 3 = str "TXT" := by
  refine ⟨?_, by decide, by decide⟩
  intro s
  obtain ⟨rest, h1, h2, h3⟩ := takeWhile_split (fun c => decide (¬(c = 0 ∨ c = 32))) s
  refine ⟨rest, ?_, ?_, ?_⟩
  · rw [uchar2string_eq_takeWhile, List.take_length]; exact h1
  · intro c hc
    rw [uchar2string_eq_takeWhile, List.take_length] at hc
    have := h2 c hc
    simpa [not_or] using this
  · rcases h3 with h3 | ⟨c, tl, hr, hc⟩
    · exact Or.inl h3
    · refine Or.inr ⟨c, tl, hr, ?_⟩
      by_contra hn
      simp [hn] at hc

/-- C3: every line of the listing of an image that holds a complete boot-sector record
belongs to a slot `i < root_files_n` whose normalized name is non-empty, and the name it
displays is the normalized name followed by `.` and the normalized extension when that
extension is non-empty, and the normalized name alone otherwise. -/
theorem listing_e_name_display_rule (dm : DataModel) (img : List u_char)
    (hbs : sizeof_struct dm fat16_bs_members ≤ img.length) (hmax : img.length < 2 ^ 63)
    (r : Row) (hr : r ∈ listing dm img) :
    ∃ i, i < (read_bs dm img).root_files_n dm ∧
      r = entry_row dm (slot img (root_offset dm (read_bs dm img)) i) ∧
      uchar2string ((slot img (root_offset dm (read_bs dm img)) i).filename dm) 8 ≠ [] ∧
      r.e_name =
        if uchar2string ((slot img (root_offset dm (read_bs dm img)) i).ext dm) 3 ≠ [] then
          uchar2string ((slot img (root_offset dm (read_bs dm img)) i).filename dm) 8 ++
            str "." ++
            uchar2string ((slot img (root_offset dm (read_bs dm img)) i).ext dm) 3
        else uchar2string ((slot img (root_offset dm (read_bs dm img)) i).filename dm) 8 := by
  rw [main_listing_eq dm img hbs hmax] at hr
  obtain ⟨i, hi, rfl⟩ := List.mem_map.1 hr
  obtain ⟨hi1, hi2⟩ := List.mem_filter.1 hi
  refine ⟨i, List.mem_range.1 hi1, rfl, ?_, ?_⟩
  · simpa [fat16_name_size] using hi2
  · simp only [entry_row, fat16_name_size, fat16_ext_size]
    by_cases he : uchar2string ((slot img (root_offset dm (read_bs dm img)) i).ext dm) 3 = []
    · simp [he]
    · simp [he]

/-- Witness of C3: the image `sample_img`, whose only line displays `README.TXT`. -/
theorem listing_e_name_display_rule_witness :
    sizeof_struct LP64 fat16_bs_members ≤ sample_img.length ∧ sample_img.length < 2 ^ 63 ∧
    entry_row LP64 ⟨readme_entry⟩ ∈ listing LP64 sample_img ∧
    (entry_row LP64 ⟨readme_entry⟩).e_name = str "README.TXT" ∧
    ∃ i, i < (read_bs LP64 sample_img).root_files_n LP64 ∧
      entry_row LP64 ⟨readme_entry⟩ =
        entry_row LP64 (slot sample_img (root_offset LP64 (read_bs LP64 sample_img)) i) ∧
      uchar2string ((slot sample_img (root_offset LP64 (read_bs LP64 sample_img)) i).filename
        LP64) 8 ≠ [] ∧
      (entry_row LP64 ⟨readme_entry⟩).e_name =
        if uchar2string ((slot sample_img (root_offset LP64 (read_bs LP64 sample_img)) i).ext
            LP64) 3 ≠ [] then
          uchar2string ((slot sample_img (root_offset LP64 (read_bs LP64 sample_img)) i).filename
              LP64) 8 ++ str "." ++
            uchar2string ((slot sample_img (root_offset LP64 (read_bs LP64 sample_img)) i).ext
              LP64) 3
        else uchar2string
          ((slot sample_img (root_offset LP64 (read_bs LP64 sample_img)) i).filename LP64) 8 :=
  ⟨by decide!, by decide!, by decide!, by decide,
    listing_e_name_display_rule LP64 sample_img (by decide!) (by decide!) _ (by decide!)⟩

/-- C4: for every 16-bit packed date, the three date numbers `date_format` writes are, in
this order, the year `1980 +` bits 15 to 9, the month bits 8 to 5 and the day bits 4 to 0
of the date; the bits are passed through without range validation, so that the date
`0xFFFF` gives 2107, 15, 31 and the date 0 gives 1980, 0, 0. -/
theorem date_fields_are_raw_bits (date : Fin 65536) :
    date_fields date.val =
      [1980 + date.val / 2 ^ 9 % 2 ^ 7, date.val / 2 ^ 5 % 2 ^ 4, date.val % 2 ^ 5] ∧
    date_fields 0xFFFF = [2107, 15, 31] ∧ date_fields 0 = [1980, 0, 0] := by
  refine ⟨?_, by decide, by decide⟩
  have h := date.isLt
  rw [date_fields, date_format_fields_eq]
  have : date.val / 512 % 128 = date.val / 512 := Nat.mod_eq_of_lt (by omega)
  simp [this]

/-- C5: the three time numbers `date_format` writes are, in the order written, bits 4 to 0
(seconds/2), bits 10 to 5 (minutes) and bits 15 to 11 (hours) of the time: the order is
second, minute, hour, not hour, minute, second.  The time `0x6160` (12:11:00) is written
as 0, 11, 12, and the time `0x0800` (01:00:00) as 0, 0, 1. -/
theorem time_fields_written_low_bits_first (time : Fin 65536) :
    time_fields time.val =
      [time.val % 2 ^ 5, time.val / 2 ^ 5 % 2 ^ 6, time.val / 2 ^ 11 % 2 ^ 5] ∧
    time_fields 0x6160 = [0, 11, 12] ∧
    [0x6160 / 2 ^ 11 % 2 ^ 5, 0x6160 / 2 ^ 5 % 2 ^ 6, 0x6160 % 2 ^ 5] = [12, 11, 0] ∧
    time_fields 0x0800 = [0, 0, 1] ∧
    date_format 0x4217 0x6160 ':' = "2013:0:23 0:11:12" := by
  refine ⟨?_, by decide, by decide, by decide, by decide⟩
  have h := time.isLt
  rw [time_fields, date_format_fields_eq]
  have : time.val / 2048 % 32 = time.val / 2048 := Nat.mod_eq_of_lt (by omega)
  simp [this]

/-- C6: for every image that holds a complete boot-sector record, the directory listing
of `main` is, in slot order, the lines of exactly the slots `i < root_files_n` whose
normalized 8-byte name is non-empty, slot `i` being the 32 bytes of the image at
`root_offset + 32 * i`.  A slot with an empty name contributes no line and does not end
the scan, and the attribute byte plays no part in the selection. -/
theorem listing_is_named_slots_in_order (dm : DataModel) (img : List u_char)
    (hbs : sizeof_struct dm fat16_bs_members ≤ img.length) (hmax : img.length < 2 ^ 63) :
    listing dm img =
      ((List.range ((read_bs dm img).root_files_n dm)).filter (fun i =>
        !(uchar2string ((slot img (root_offset dm (read_bs dm img)) i).filename dm)
          fat16_name_size).isEmpty)).map
        (fun i => entry_row dm (slot img (root_offset dm (read_bs dm img)) i)) :=
  main_listing_eq dm img hbs hmax

/-- Witness of C6: in `sample_img` slot 0 is unused and slot 1 is `README.TXT`. -/
theorem listing_is_named_slots_in_order_witness :
    sizeof_struct LP64 fat16_bs_members ≤ sample_img.length ∧ sample_img.length < 2 ^ 63 ∧
    (read_bs LP64 sample_img).root_files_n LP64 = 2 ∧
    uchar2string ((slot sample_img 8704 0).filename LP64) fat16_name_size = [] ∧
    listing LP64 sample_img = [entry_row LP64 (slot sample_img 8704 1)] ∧
    listing LP64 sample_img =
      ((List.range ((read_bs LP64 sample_img).root_files_n LP64)).filter (fun i =>
        !(uchar2string ((slot sample_img (root_offset LP64 (read_bs LP64 sample_img)) i).filename
          LP64) fat16_name_size).isEmpty)).map
        (fun i => entry_row LP64 (slot sample_img (root_offset LP64 (read_bs LP64 sample_img)) i)) :=
  ⟨by decide!, by decide!, by decide!, by decide!, by decide!,
    listing_is_named_slots_in_order LP64 sample_img (by decide!) (by decide!)⟩

/-- C7: for every image, the loop of `main` makes exactly `root_files_n` calls of `read`,
at most 65535, each requesting 32 bytes, and then stops; the call of iteration `j` either
transfers nothing or starts at `root_offset + 32 * j` and transfers at most 32 bytes, so
that no byte of a slot with index `root_files_n` or more is read; the listing has at most
`root_files_n` lines; and when the image holds the boot-sector record and the whole
root-directory region, the call of iteration `j` transfers exactly the 32 bytes at
`root_offset + 32 * j`. -/
theorem scan_reads_root_files_n_slots (dm : DataModel) (img : List u_char) :
    (read_bs dm img).root_files_n dm ≤ 65535 ∧
    (slot_reads dm img).length = (read_bs dm img).root_files_n dm ∧
    (∀ ev ∈ slot_reads dm img, ev.requested = 32 ∧ ev.gcount ≤ 32) ∧
    (∀ (j : Nat) (ev : ReadEvent), (slot_reads dm img)[j]? = some ev →
      j < (read_bs dm img).root_files_n dm ∧
      (ev.gcount = 0 ∨ ev.pos = root_offset dm (read_bs dm img) + 32 * j)) ∧
    (listing dm img).length ≤ (read_bs dm img).root_files_n dm ∧
    (sizeof_struct dm fat16_bs_members ≤ img.length → img.length < 2 ^ 63 →
      root_offset dm (read_bs dm img) + 32 * (read_bs dm img).root_files_n dm ≤ img.length →
      slot_reads dm img =
        (List.range ((read_bs dm img).root_files_n dm)).map
          (fun j => (⟨root_offset dm (read_bs dm img) + 32 * j, 32, 32⟩ : ReadEvent))) := by
  obtain ⟨_, s2, s3, _⟩ :=
    seekg_spec ((ifstream.opened img).read (sizeof_struct dm fat16_bs_members)).2
      (root_offset dm (read_bs dm img))
  obtain ⟨ev0, e1, _⟩ := read_log (ifstream.opened img) (sizeof_struct dm fat16_bs_members)
  obtain ⟨_, ⟨evs, l1, l2, l3, l4⟩, l5⟩ := main_loop_log dm _ (root_offset dm (read_bs dm img))
    s3 ((read_bs dm img).root_files_n dm)
  have hlog : slot_reads dm img = evs := by
    rw [slot_reads, main_eq, l1, s2, e1]
    simp [ifstream.opened]
  refine ⟨root_files_n_le dm _, by rw [hlog, l2], by rw [hlog]; exact l3, ?_, ?_,
    slot_reads_full dm img⟩
  · intro j ev hj
    rw [hlog] at hj
    refine ⟨?_, l4 j ev hj⟩
    have := (List.getElem?_eq_some_iff.1 hj).1
    omega
  · rw [listing, main_eq]; exact l5

/-- Witness of C7: the two slot reads of `sample_img`, at 8704 and 8736. -/
theorem scan_reads_root_files_n_slots_witness :
    slot_reads LP64 sample_img = [⟨8704, 32, 32⟩, ⟨8736, 32, 32⟩] ∧
    (read_bs LP64 sample_img).root_files_n LP64 ≤ 65535 ∧
    (slot_reads LP64 sample_img).length = (read_bs LP64 sample_img).root_files_n LP64 ∧
    (listing LP64 sample_img).length ≤ (read_bs LP64 sample_img).root_files_n LP64 ∧
    slot_reads LP64 sample_img =
      (List.range ((read_bs LP64 sample_img).root_files_n LP64)).map
        (fun j => (⟨root_offset LP64 (read_bs LP64 sample_img) + 32 * j, 32, 32⟩ : ReadEvent)) :=
  ⟨by decide!, (scan_reads_root_files_n_slots LP64 sample_img).1,
    (scan_reads_root_files_n_slots LP64 sample_img).2.1,
    (scan_reads_root_files_n_slots LP64 sample_img).2.2.2.2.1,
    (scan_reads_root_files_n_slots LP64 sample_img).2.2.2.2.2 (by decide!) (by decide!)
      (by decide!)⟩

/-- C8: the record `fat16_bs_t` is packed, and its size is `500 + 3 * sizeof(u_long)`,
with the member `signature` at offset `498 + 3 * sizeof(u_long)`: the three members
`hidden_sects_n`, `total_sects_long` and `volume_id` are declared `u_long`.  The size is
512 bytes, with `signature` at 510 and `boot_signature` at 38, exactly when `u_long` has
4 bytes.  Under the LP64 data model the size is 524 bytes, with `signature` at 522 and
`boot_signature` at 46: on `sample_img`, `main` reads 524 bytes, finds 78 instead of
`0x29` in `boot_signature` and 0 instead of `0xAA55` in `signature`. -/
theorem sizeof_fat16_bs_t_follows_u_long :
    (∀ dm : DataModel, sizeof_struct dm fat16_bs_members = 500 + 3 * dm.sizeof_long ∧
      offsetof dm fat16_bs_members "signature" = 498 + 3 * dm.sizeof_long ∧
      offsetof dm fat16_bs_members "boot_signature" = 30 + 2 * dm.sizeof_long ∧
      (sizeof_struct dm fat16_bs_members = 512 ↔ dm.sizeof_long = 4)) ∧
    sizeof_struct ILP32 fat16_bs_members = 512 ∧
    offsetof ILP32 fat16_bs_members "signature" = 510 ∧
    sizeof_struct LP64 fat16_bs_members = 524 ∧
    offsetof LP64 fat16_bs_members "signature" = 522 ∧
    (main LP64 sample_img).1.log.head? = some ⟨0, 524, 524⟩ ∧
    (read_bs LP64 sample_img).boot_signature LP64 = 78 ∧
    (read_bs LP64 sample_img).signature LP64 = 0 ∧
    (read_bs ILP32 sample_img).boot_signature ILP32 = 0x29 ∧
    (read_bs ILP32 sample_img).signature ILP32 = 0xAA55 := by
  refine ⟨?_, by decide, by decide, by decide, by decide, by decide!, by decide, by decide!,
    by decide, by decide!⟩
  intro dm
  have h := sizeof_bs dm
  refine ⟨h, ?_, ?_, by omega⟩
  · simp [offsetof, fat16_bs_members, Member.size, sizeof]; omega
  · simp [offsetof, fat16_bs_members, Member.size, sizeof]; omega

/-- C9: for every image of at least 512 bytes, the boot-sector members `main` uses hold
the little-endian values of the image bytes at the FAT16 offsets: `sect_size` bytes 11
and 12, `sects_in_cluster` byte 13, `rsrvd_sects` bytes 14 and 15, `fats_n` byte 16,
`root_files_n` bytes 17 and 18, `fat_size` bytes 22 and 23, a 16-bit value being the low
byte plus 256 times the high byte. -/
theorem bs_fields_little_endian_at_bpb_offsets (dm : DataModel) (img : List u_char)
    (h : 512 ≤ img.length) :
    (read_bs dm img).sect_size dm =
      (img.get ⟨11, by omega⟩).val + 256 * (img.get ⟨12, by omega⟩).val ∧
    (read_bs dm img).sects_in_cluster dm = (img.get ⟨13, by omega⟩).val ∧
    (read_bs dm img).rsrvd_sects dm =
      (img.get ⟨14, by omega⟩).val + 256 * (img.get ⟨15, by omega⟩).val ∧
    (read_bs dm img).fats_n dm = (img.get ⟨16, by omega⟩).val ∧
    (read_bs dm img).root_files_n dm =
      (img.get ⟨17, by omega⟩).val + 256 * (img.get ⟨18, by omega⟩).val ∧
    (read_bs dm img).fat_size dm =
      (img.get ⟨22, by omega⟩).val + 256 * (img.get ⟨23, by omega⟩).val := by
  have hsz := sizeof_bs dm
  have g : ∀ (k : Nat) (hk : k < img.length), img.get ⟨k, hk⟩ = img.getD k 0 := by
    intro k hk
    rw [List.getD_eq_getElem _ _ hk]
    rfl
  simp only [g]
  refine ⟨?_, ?_, ?_, ?_, ?_, ?_⟩
  · exact bs_field_two dm img "sect_size" 11
      (by simp [offsetof, fat16_bs_members, Member.size, sizeof])
      (by simp [member_size, fat16_bs_members, Member.size, sizeof]) (by omega)
  · exact bs_field_one dm img "sects_in_cluster" 13
      (by simp [offsetof, fat16_bs_members, Member.size, sizeof])
      (by simp [member_size, fat16_bs_members, Member.size, sizeof]) (by omega)
  · exact bs_field_two dm img "rsrvd_sects" 14
      (by simp [offsetof, fat16_bs_members, Member.size, sizeof])
      (by simp [member_size, fat16_bs_members, Member.size, sizeof]) (by omega)
  · exact bs_field_one dm img "fats_n" 16
      (by simp [offsetof, fat16_bs_members, Member.size, sizeof])
      (by simp [member_size, fat16_bs_members, Member.size, sizeof]) (by omega)
  · exact bs_field_two dm img "root_files_n" 17
      (by simp [offsetof, fat16_bs_members, Member.size, sizeof])
      (by simp [member_size, fat16_bs_members, Member.size, sizeof]) (by omega)
  · exact bs_field_two dm img "fat_size" 22
      (by simp [offsetof, fat16_bs_members, Member.size, sizeof])
      (by simp [member_size, fat16_bs_members, Member.size, sizeof]) (by omega)

/-- Witness of C9: the header fields of `sample_img`. -/
theorem bs_fields_little_endian_at_bpb_offsets_witness :
    512 ≤ sample_img.length ∧
    (read_bs LP64 sample_img).sect_size LP64 = 512 ∧
    (read_bs LP64 sample_img).sects_in_cluster LP64 = 1 ∧
    (read_bs LP64 sample_img).rsrvd_sects LP64 = 1 ∧
    (read_bs LP64 sample_img).fats_n LP64 = 2 ∧
    (read_bs LP64 sample_img).root_files_n LP64 = 2 ∧
    (read_bs LP64 sample_img).fat_size LP64 = 8 ∧
    (read_bs LP64 sample_img).fat_size LP64 =
      (sample_img.get ⟨22, by decide!⟩).val + 256 * (sample_img.get ⟨23, by decide!⟩).val :=
  ⟨by decide!, by decide, by decide, by decide, by decide, by decide, by decide,
    (bs_fields_little_endian_at_bpb_offsets LP64 sample_img (by decide!)).2.2.2.2.2⟩

/-- C10: the record `fat16_entry_t` is packed and has 32 bytes, with `filename` at offset
0, `ext` at 8, `attributes` at 11, `modify_time` at 22, `modify_date` at 24,
`starting_cluster` at 26 and `file_size` at 28.  Every entry object is decoded
accordingly: `filename` is bytes 0 to 7, `ext` bytes 8 to 10, `attributes` byte 11,
`modify_time`, `modify_date` and `starting_cluster` the little-endian values of bytes 22
and 23, 24 and 25, 26 and 27, and the `int` member `file_size` is the 32-bit value whose
little-endian representation is bytes 28 to 31.  A slot has 32 bytes, and byte `j` of slot
`i` is the byte of the image at `offset + 32 * i + j`. -/
theorem entry_fields_little_endian_at_offsets (dm : DataModel) (e : fat16_entry_t) :
    sizeof_struct dm fat16_entry_members = 32 ∧
    (["filename", "ext", "attributes", "modify_time", "modify_date", "starting_cluster",
        "file_size"].map (offsetof dm fat16_entry_members) = [0, 8, 11, 22, 24, 26, 28]) ∧
    e.filename dm = e.raw.take 8 ∧
    e.ext dm = (e.raw.drop 8).take 3 ∧
    e.attributes dm = (e.raw.getD 11 0).val ∧
    e.modify_time dm = (e.raw.getD 22 0).val + 256 * (e.raw.getD 23 0).val ∧
    e.modify_date dm = (e.raw.getD 24 0).val + 256 * (e.raw.getD 25 0).val ∧
    e.starting_cluster dm = (e.raw.getD 26 0).val + 256 * (e.raw.getD 27 0).val ∧
    e.file_size dm % 4294967296 =
      ((e.raw.getD 28 0).val + 256 * (e.raw.getD 29 0).val + 65536 * (e.raw.getD 30 0).val +
        16777216 * (e.raw.getD 31 0).val : Nat) ∧
    INT_MIN ≤ e.file_size dm ∧ e.file_size dm ≤ INT_MAX ∧
    (∀ (img : List u_char) (offset i : Nat), (slot img offset i).raw.length = 32 ∧
      ∀ j : Fin 32, (slot img offset i).raw.getD j.val 0 =
        img.getD (offset + 32 * i + j.val) 0) := by
  refine ⟨sizeof_entry dm, ?_, ?_, ?_, ?_, ?_, ?_, ?_, ?_, (int_wrap_range _).1,
    (int_wrap_range _).2, ?_⟩
  · simp [offsetof, fat16_entry_members, Member.size, sizeof]
  · simp [fat16_entry_t.filename, fat16_entry_t.bytes, member_bytes, member_size, offsetof,
      fat16_entry_members, Member.size, sizeof]
  · simp [fat16_entry_t.ext, fat16_entry_t.bytes, member_bytes, member_size, offsetof,
      fat16_entry_members, Member.size, sizeof]
  · have := le_value_take_one (e.raw.drop 11)
    rw [getD_drop_zero] at this
    simpa [fat16_entry_t.attributes, fat16_entry_t.bytes, member_bytes, member_size, offsetof,
      fat16_entry_members, Member.size, sizeof] using this
  · have := le_value_take_two (e.raw.drop 22)
    rw [getD_drop_zero, getD_drop_zero] at this
    simpa [fat16_entry_t.modify_time, fat16_entry_t.bytes, member_bytes, member_size, offsetof,
      fat16_entry_members, Member.size, sizeof] using this
  · have := le_value_take_two (e.raw.drop 24)
    rw [getD_drop_zero, getD_drop_zero] at this
    simpa [fat16_entry_t.modify_date, fat16_entry_t.bytes, member_bytes, member_size, offsetof,
      fat16_entry_members, Member.size, sizeof] using this
  · have := le_value_take_two (e.raw.drop 26)
    rw [getD_drop_zero, getD_drop_zero] at this
    simpa [fat16_entry_t.starting_cluster, fat16_entry_t.bytes, member_bytes, member_size,
      offsetof, fat16_entry_members, Member.size, sizeof] using this
  · have := le_value_take_four (e.raw.drop 28)
    rw [getD_drop_zero, getD_drop_zero, getD_drop_zero, getD_drop_zero] at this
    have hb : e.bytes dm "file_size" = (e.raw.drop 28).take 4 := by
      simp [fat16_entry_t.bytes, member_bytes, member_size, offsetof,
        fat16_entry_members, Member.size, sizeof]
    simp only [Nat.add_zero, Nat.reduceAdd] at this
    rw [fat16_entry_t.file_size, int_wrap_emod, hb, this]
    omega
  · intro img offset i
    refine ⟨?_, fun j => slot_getD img offset i j.val j.isLt⟩
    simp only [slot, List.length_append, List.length_replicate, List.length_take]
    omega

/-- C11 (counterexample): `truncated_img` ends 16 bytes into its second root-directory
slot.  The second slot read transfers 16 of the 32 bytes requested and sets the fail bit,
and `main` still decodes the record built from the partial read and reports it: the line
`README.TXT` with the date and time `1980:0:0 0:0:0` and the size 0, where the complete
image gives `2013:0:23 0:11:12` and 5.  For `short_img`, 100 bytes long, the boot-sector
read transfers 100 of 524 bytes, and `main` still decodes and writes the header table. -/
theorem partial_record_is_reported :
    truncated_img.length = 8752 ∧
    slot_reads LP64 truncated_img = [⟨8704, 32, 32⟩, ⟨8736, 32, 16⟩] ∧
    (main LP64 truncated_img).1.failbit = true ∧
    listing LP64 truncated_img = [⟨str "README.TXT", "1980:0:0 0:0:0", 0, ["archive"]⟩] ∧
    listing LP64 sample_img = [⟨str "README.TXT", "2013:0:23 0:11:12", 5, ["archive"]⟩] ∧
    short_img.length = 100 ∧
    (main LP64 short_img).1.log.head? = some ⟨0, 524, 100⟩ ∧
    (main LP64 short_img).1.failbit = true ∧
    info_value LP64 (read_bs LP64 short_img) "sector size" = some "512" ∧
    info_value LP64 (read_bs LP64 short_img) "signature" = some "78" := by
  refine ⟨by decide!, by decide!, by decide!, by decide!, by decide!, by decide!, by decide!,
    by decide!, by decide!, by decide!⟩

/-- C11 (amended): when fewer bytes are available than a record requires, the read stores
the available bytes at the start of the zero-initialised record and sets the fail bit of
the stream; `main` never tests the stream, raises no error and goes on.  After a short
boot-sector read (the image has fewer than `sizeof(fat16_bs_t)` bytes) the boot-sector
object is the image followed by zero bytes, every slot read transfers nothing and the
listing is empty.  After a short read of slot `k` the record of slot `k` is the available
bytes followed by zero bytes, it is decoded and reported like a complete slot when its
normalized name is non-empty, the slots before it are reported as usual, and every later
read transfers nothing, so that the listing ends with slot `k`. -/
theorem short_read_sets_failbit_and_goes_on :
    (∀ (dm : DataModel) (img : List u_char), img.length < sizeof_struct dm fat16_bs_members →
      (read_bs dm img).raw =
          img ++ List.replicate (sizeof_struct dm fat16_bs_members - img.length) 0 ∧
        (main dm img).1.failbit = true ∧
        listing dm img = [] ∧
        slot_reads dm img =
          List.replicate ((read_bs dm img).root_files_n dm) ⟨img.length, 32, 0⟩) ∧
    (∀ (dm : DataModel) (img : List u_char) (k : Nat),
      sizeof_struct dm fat16_bs_members ≤ img.length → img.length < 2 ^ 63 →
      k < (read_bs dm img).root_files_n dm →
      root_offset dm (read_bs dm img) + 32 * k ≤ img.length →
      img.length < root_offset dm (read_bs dm img) + 32 * (k + 1) →
      (slot img (root_offset dm (read_bs dm img)) k).raw =
          img.drop (root_offset dm (read_bs dm img) + 32 * k) ++
            List.replicate (32 - (img.length - (root_offset dm (read_bs dm img) + 32 * k))) 0 ∧
        slot_reads dm img =
          (List.range k).map
            (fun j => (⟨root_offset dm (read_bs dm img) + 32 * j, 32, 32⟩ : ReadEvent)) ++
          [⟨root_offset dm (read_bs dm img) + 32 * k, 32,
            img.length - (root_offset dm (read_bs dm img) + 32 * k)⟩] ++
          List.replicate ((read_bs dm img).root_files_n dm - (k + 1)) ⟨img.length, 32, 0⟩ ∧
        (main dm img).1.failbit = true ∧
        listing dm img =
          ((List.range (k + 1)).filter (fun i =>
            !(uchar2string ((slot img (root_offset dm (read_bs dm img)) i).filename dm)
              fat16_name_size).isEmpty)).map
            (fun i => entry_row dm (slot img (root_offset dm (read_bs dm img)) i))) := by
  refine ⟨main_short_bs, ?_⟩
  intro dm img k hbs hmax hk h1 h2
  exact ⟨slot_short img _ k h1 h2, main_short_slot dm img k hbs hmax hk h1 h2⟩

/-- Witness of C11: the short boot sector `short_img` and the image `truncated_img`, cut in
slot 1. -/
theorem short_read_sets_failbit_and_goes_on_witness :
    short_img.length < sizeof_struct LP64 fat16_bs_members ∧
    listing LP64 short_img = [] ∧
    slot_reads LP64 short_img =
      List.replicate ((read_bs LP64 short_img).root_files_n LP64) ⟨short_img.length, 32, 0⟩ ∧
    sizeof_struct LP64 fat16_bs_members ≤ truncated_img.length ∧
    truncated_img.length < 2 ^ 63 ∧
    1 < (read_bs LP64 truncated_img).root_files_n LP64 ∧
    root_offset LP64 (read_bs LP64 truncated_img) + 32 * 1 ≤ truncated_img.length ∧
    truncated_img.length < root_offset LP64 (read_bs LP64 truncated_img) + 32 * (1 + 1) ∧
    listing LP64 truncated_img =
      ((List.range (1 + 1)).filter (fun i =>
        !(uchar2string ((slot truncated_img (root_offset LP64 (read_bs LP64 truncated_img))
          i).filename LP64) fat16_name_size).isEmpty)).map
        (fun i => entry_row LP64
          (slot truncated_img (root_offset LP64 (read_bs LP64 truncated_img)) i)) :=
  ⟨by decide!,
    (short_read_sets_failbit_and_goes_on.1 LP64 short_img (by decide!)).2.2.1,
    (short_read_sets_failbit_and_goes_on.1 LP64 short_img (by decide!)).2.2.2,
    by decide!, by decide!, by decide!, by decide!, by decide!,
    (short_read_sets_failbit_and_goes_on.2 LP64 truncated_img 1 (by decide!) (by decide!)
      (by decide!) (by decide!) (by decide!)).2.2.2⟩

/-- C12 (counterexample): the offset depends on four header members.  Starting from the
boot sector with `sect_size = 512`, `rsrvd_sects = 1`, `fats_n = 2`, `fat_size = 8`
(offset 8704), changing any single one of the four, with the other three and every other
byte of the boot sector unchanged (only byte 12, 14, 16 or 22 differs), changes the
offset; so whichever three members are chosen, two boot sectors agree on them and have
different offsets. -/
theorem root_offset_depends_on_four_members :
    root_offset LP64 (read_bs LP64 (header_img 512 1 2 8)) = 8704 ∧
    root_offset LP64 (read_bs LP64 (header_img 1024 1 2 8)) = 17408 ∧
    root_offset LP64 (read_bs LP64 (header_img 512 2 2 8)) = 9216 ∧
    root_offset LP64 (read_bs LP64 (header_img 512 1 1 8)) = 4608 ∧
    root_offset LP64 (read_bs LP64 (header_img 512 1 2 9)) = 9728 ∧
    ((header_img 512 1 2 8).take 12 = (header_img 1024 1 2 8).take 12 ∧
      (header_img 512 1 2 8).drop 13 = (header_img 1024 1 2 8).drop 13) ∧
    ((header_img 512 1 2 8).take 14 = (header_img 512 2 2 8).take 14 ∧
      (header_img 512 1 2 8).drop 15 = (header_img 512 2 2 8).drop 15) ∧
    ((header_img 512 1 2 8).take 16 = (header_img 512 1 1 8).take 16 ∧
      (header_img 512 1 2 8).drop 17 = (header_img 512 1 1 8).drop 17) ∧
    ((header_img 512 1 2 8).take 22 = (header_img 512 1 2 9).take 22 ∧
      (header_img 512 1 2 8).drop 23 = (header_img 512 1 2 9).drop 23) := by
  refine ⟨by decide!, by decide!, by decide!, by decide!, by decide!, by decide!, by decide!,
    by decide!, by decide!⟩

/-- C12 (amended): the root-directory offset is a function of exactly the four header
members `rsrvd_sects`, `fat_size`, `fats_n` and `sect_size`: two boot sectors that agree
on these four have the same offset, whatever else differs, and so have two images that
agree on the bytes 11, 12, 14, 15, 16, 22 and 23; and each of the four members, changed
alone, changes the offset. -/
theorem root_offset_function_of_four_members :
    (∀ (dm : DataModel) (bs1 bs2 : fat16_bs_t),
      bs1.rsrvd_sects dm = bs2.rsrvd_sects dm → bs1.fat_size dm = bs2.fat_size dm →
      bs1.fats_n dm = bs2.fats_n dm → bs1.sect_size dm = bs2.sect_size dm →
      root_offset dm bs1 = root_offset dm bs2) ∧
    (∀ (dm : DataModel) (img1 img2 : List u_char),
      (∀ k ∈ [11, 12, 14, 15, 16, 22, 23], img1.getD k 0 = img2.getD k 0) →
      root_offset dm (read_bs dm img1) = root_offset dm (read_bs dm img2)) ∧
    root_offset LP64 (read_bs LP64 (header_img 512 1 2 8)) ≠
      root_offset LP64 (read_bs LP64 (header_img 1024 1 2 8)) ∧
    root_offset LP64 (read_bs LP64 (header_img 512 1 2 8)) ≠
      root_offset LP64 (read_bs LP64 (header_img 512 2 2 8)) ∧
    root_offset LP64 (read_bs LP64 (header_img 512 1 2 8)) ≠
      root_offset LP64 (read_bs LP64 (header_img 512 1 1 8)) ∧
    root_offset LP64 (read_bs LP64 (header_img 512 1 2 8)) ≠
      root_offset LP64 (read_bs LP64 (header_img 512 1 2 9)) := by
  have hfun : ∀ (dm : DataModel) (bs1 bs2 : fat16_bs_t),
      bs1.rsrvd_sects dm = bs2.rsrvd_sects dm → bs1.fat_size dm = bs2.fat_size dm →
      bs1.fats_n dm = bs2.fats_n dm → bs1.sect_size dm = bs2.sect_size dm →
      root_offset dm bs1 = root_offset dm bs2 := by
    intro dm bs1 bs2 h1 h2 h3 h4
    simp only [root_offset, h1, h2, h3, h4]
  refine ⟨hfun, ?_, by decide!, by decide!, by decide!, by decide!⟩
  intro dm img1 img2 h
  have hsz := sizeof_bs dm
  have f2 : ∀ (img : List u_char) (x : String) (k : Nat),
      offsetof dm fat16_bs_members x = k → member_size dm fat16_bs_members x = 2 → k < 100 →
      (read_bs dm img).field dm x = (img.getD k 0).val + 256 * (img.getD (k + 1) 0).val :=
    fun img x k hk hs hlt => bs_field_two dm img x k hk hs (by omega)
  have o1 : offsetof dm fat16_bs_members "rsrvd_sects" = 14 := by
    simp [offsetof, fat16_bs_members, Member.size, sizeof]
  have s1 : member_size dm fat16_bs_members "rsrvd_sects" = 2 := by
    simp [member_size, fat16_bs_members, Member.size, sizeof]
  have o2 : offsetof dm fat16_bs_members "fat_size" = 22 := by
    simp [offsetof, fat16_bs_members, Member.size, sizeof]
  have s2 : member_size dm fat16_bs_members "fat_size" = 2 := by
    simp [member_size, fat16_bs_members, Member.size, sizeof]
  have o3 : offsetof dm fat16_bs_members "fats_n" = 16 := by
    simp [offsetof, fat16_bs_members, Member.size, sizeof]
  have s3 : member_size dm fat16_bs_members "fats_n" = 1 := by
    simp [member_size, fat16_bs_members, Member.size, sizeof]
  have o4 : offsetof dm fat16_bs_members "sect_size" = 11 := by
    simp [offsetof, fat16_bs_members, Member.size, sizeof]
  have s4 : member_size dm fat16_bs_members "sect_size" = 2 := by
    simp [member_size, fat16_bs_members, Member.size, sizeof]
  have h11 := h 11 (by simp)
  have h12 := h 12 (by simp)
  have h14 := h 14 (by simp)
  have h15 := h 15 (by simp)
  have h16 := h 16 (by simp)
  have h22 := h 22 (by simp)
  have h23 := h 23 (by simp)
  apply hfun
  · simp only [fat16_bs_t.rsrvd_sects]
    rw [f2 img1 _ 14 o1 s1 (by omega), f2 img2 _ 14 o1 s1 (by omega), h14, h15]
  · simp only [fat16_bs_t.fat_size]
    rw [f2 img1 _ 22 o2 s2 (by omega), f2 img2 _ 22 o2 s2 (by omega), h22, h23]
  · simp only [fat16_bs_t.fats_n]
    rw [bs_field_one dm img1 _ 16 o3 s3 (by omega), bs_field_one dm img2 _ 16 o3 s3 (by omega),
      h16]
  · simp only [fat16_bs_t.sect_size]
    rw [f2 img1 _ 11 o4 s4 (by omega), f2 img2 _ 11 o4 s4 (by omega), h11, h12]

/-- Witness of C12: two boot sectors that differ in the media byte (byte 21) and agree on
the four members. -/
theorem root_offset_function_of_four_members_witness :
    sample_img.getD 21 0 ≠ (header_img 512 1 2 8).getD 21 0 ∧
    (read_bs LP64 sample_img).rsrvd_sects LP64 =
      (read_bs LP64 (header_img 512 1 2 8)).rsrvd_sects LP64 ∧
    (read_bs LP64 sample_img).fat_size LP64 =
      (read_bs LP64 (header_img 512 1 2 8)).fat_size LP64 ∧
    (read_bs LP64 sample_img).fats_n LP64 =
      (read_bs LP64 (header_img 512 1 2 8)).fats_n LP64 ∧
    (read_bs LP64 sample_img).sect_size LP64 =
      (read_bs LP64 (header_img 512 1 2 8)).sect_size LP64 ∧
    root_offset LP64 (read_bs LP64 sample_img) =
      root_offset LP64 (read_bs LP64 (header_img 512 1 2 8)) :=
  ⟨by decide, by decide, by decide, by decide, by decide,
    root_offset_function_of_four_members.1 LP64 (read_bs LP64 sample_img)
      (read_bs LP64 (header_img 512 1 2 8)) (by decide) (by decide) (by decide) (by decide)⟩

/-- C13 (counterexample): for the date `0x4217`, `date_format` does not write the numbers
2013, 1, 23. -/
theorem date_0x4217_month_is_not_one : date_fields 0x4217 ≠ [2013, 1, 23] := by
  decide

/-- C13 (amended): for the packed date `0x4217` (bits 0100001 0000 10111), the date
numbers `date_format` writes are year 2013, month 0 and day 23: bits 8 to 5 of `0x4217`
are all zero. -/
theorem date_0x4217_fields :
    date_fields 0x4217 = [2013, 0, 23] ∧
    0x4217 / 2 ^ 9 % 2 ^ 7 = 33 ∧ 0x4217 / 2 ^ 5 % 2 ^ 4 = 0 ∧ 0x4217 % 2 ^ 5 = 23 ∧
    0x4217 = 33 * 512 + 0 * 32 + 23 := by
  decide

/-- C14 (counterexample): the name fields `" README "` (leading space) and the field that
starts with `0x00` followed by `EADME  ` normalize to the empty name although not all of
their bytes are `0x00` or `0x20`. -/
theorem empty_name_with_other_bytes :
    uchar2string (str " README ") 8 = [] ∧ (str " README ").length = 8 ∧
    ¬ (∀ c ∈ str " README ", c = 0 ∨ c = 32) ∧
    uchar2string (0 :: str "EADME  ") 8 = [] ∧ (0 :: str "EADME  ").length = 8 ∧
    ¬ (∀ c ∈ (0 :: str "EADME  "), c = 0 ∨ c = 32) := by
  decide!

/-- C14 (amended): for every 8-byte name field, the normalized name `uchar2string(name, 8)`
is empty exactly when the first byte of the field is `0x00` or `0x20` (in particular an
all-zero field normalizes to the empty name), and for an image that holds a complete
boot-sector record the listing consists of the lines of exactly the slots whose first
byte is neither `0x00` nor `0x20`. -/
theorem empty_name_iff_first_byte_stops :
    (∀ b0 b1 b2 b3 b4 b5 b6 b7 : u_char,
      uchar2string [b0, b1, b2, b3, b4, b5, b6, b7] 8 = [] ↔ (b0 = 0 ∨ b0 = 32)) ∧
    uchar2string (List.replicate 8 0) 8 = [] ∧
    (∀ (dm : DataModel) (img : List u_char),
      sizeof_struct dm fat16_bs_members ≤ img.length → img.length < 2 ^ 63 →
      listing dm img =
        ((List.range ((read_bs dm img).root_files_n dm)).filter (fun i =>
          decide (img.getD (root_offset dm (read_bs dm img) + 32 * i) 0 ≠ 0 ∧
            img.getD (root_offset dm (read_bs dm img) + 32 * i) 0 ≠ 32))).map
          (fun i => entry_row dm (slot img (root_offset dm (read_bs dm img)) i))) := by
  refine ⟨?_, by decide, ?_⟩
  · intro b0 b1 b2 b3 b4 b5 b6 b7
    exact uchar2string_eq_nil_iff [b0, b1, b2, b3, b4, b5, b6, b7] 8
      (List.cons_ne_nil _ _) (by decide)
  · intro dm img hbs hmax
    rw [main_listing_eq dm img hbs hmax]
    refine congrArg (List.map _) ?_
    apply List.filter_congr
    intro i _
    obtain ⟨h1, h2⟩ := slot_filename_ne_nil dm img (root_offset dm (read_bs dm img)) i
    have h3 := uchar2string_eq_nil_iff _ fat16_name_size h1 (by decide)
    rw [h2] at h3
    exact not_isEmpty_eq_decide _ _ h3

/-- Witness of C14: in `sample_img` the slot at 8704 starts with `0x00` and is left out,
and the slot at 8736 starts with `R` and is listed. -/
theorem empty_name_iff_first_byte_stops_witness :
    sizeof_struct LP64 fat16_bs_members ≤ sample_img.length ∧ sample_img.length < 2 ^ 63 ∧
    sample_img.getD 8704 0 = 0 ∧ sample_img.getD 8736 0 = 82 ∧
    listing LP64 sample_img =
      ((List.range ((read_bs LP64 sample_img).root_files_n LP64)).filter (fun i =>
        decide (sample_img.getD (root_offset LP64 (read_bs LP64 sample_img) + 32 * i) 0 ≠ 0 ∧
          sample_img.getD (root_offset LP64 (read_bs LP64 sample_img) + 32 * i) 0 ≠ 32))).map
        (fun i => entry_row LP64 (slot sample_img (root_offset LP64 (read_bs LP64 sample_img)) i)) :=
  ⟨by decide!, by decide!, by decide!, by decide!,
    empty_name_iff_first_byte_stops.2.2 LP64 sample_img (by decide!) (by decide!)⟩

/-- C15: the member `file_size` is declared `int`, and `main` writes it as a signed
number: the SIZE value is the unsigned little-endian value `u` of bytes 28 to 31 when
`u < 2 ^ 31`, and `u - 2 ^ 32` otherwise.  For the slot `big_entry` of `attr_img`, whose
size bytes `00 00 00 80` hold the unsigned value 2147483648, `main` writes -2147483648. -/
theorem file_size_written_signed :
    (∀ (dm : DataModel) (e : fat16_entry_t),
      (entry_row dm e).file_size =
        if (e.raw.getD 28 0).val + 256 * (e.raw.getD 29 0).val + 65536 * (e.raw.getD 30 0).val +
            16777216 * (e.raw.getD 31 0).val < 2 ^ 31 then
          (((e.raw.getD 28 0).val + 256 * (e.raw.getD 29 0).val +
            65536 * (e.raw.getD 30 0).val + 16777216 * (e.raw.getD 31 0).val : Nat) : Int)
        else
          (((e.raw.getD 28 0).val + 256 * (e.raw.getD 29 0).val +
            65536 * (e.raw.getD 30 0).val + 16777216 * (e.raw.getD 31 0).val : Nat) : Int)
            - 2 ^ 32) ∧
    (slot attr_img 8704 1).raw = big_entry ∧
    le_value ((fat16_entry_t.mk big_entry).bytes LP64 "file_size") = 2147483648 ∧
    (listing LP64 attr_img).map (fun r => (r.e_name, r.file_size)) =
      [(str "MYDISK", 0), (str "BIG.BIN", -2147483648)] := by
  refine ⟨?_, by decide!, by decide, by decide!⟩
  intro dm e
  have h4 := le_value_take_four (e.raw.drop 28)
  rw [getD_drop_zero, getD_drop_zero, getD_drop_zero, getD_drop_zero] at h4
  simp only [Nat.add_zero, Nat.reduceAdd] at h4
  have hrow : (entry_row dm e).file_size = e.file_size dm := rfl
  rw [hrow, fat16_entry_t.file_size, file_size_bytes, h4]
  unfold int_wrap
  split <;> omega

/-- C16: the ATTRS column of a reported slot names the attribute whose value equals the
attribute byte `a`, and nothing else: `archive` for `0x20`, `dir` for `0x10`, `hidden` for
`0x02`, `label` for `0x08`, `read-only` for `0x01`, `system` for `0x04`, and no name for
any other value.  At most one name is written.  In `attr_img` the slot with attribute
`0x08` is reported with `label` alone, and the slot with attribute `0x21` is reported with
its name, date and size and with no attribute name. -/
theorem attrs_named_on_exact_match (dm : DataModel) (e : fat16_entry_t) :
    (entry_row dm e).attr_strs =
      (if e.attributes dm = 0x20 then ["archive"]
       else if e.attributes dm = 0x10 then ["dir"]
       else if e.attributes dm = 0x02 then ["hidden"]
       else if e.attributes dm = 0x08 then ["label"]
       else if e.attributes dm = 0x01 then ["read-only"]
       else if e.attributes dm = 0x04 then ["system"]
       else []) ∧
    (entry_row dm e).attr_strs.length ≤ 1 ∧
    (attrs.map (fun p => decide (p.1 ∈ (entry_row dm e).attr_strs)) =
      attrs.map (fun p => decide (e.attributes dm = p.2))) ∧
    (fat16_entry_t.mk label_entry).attributes LP64 = 0x08 ∧
    (fat16_entry_t.mk big_entry).attributes LP64 = 0x21 ∧
    listing LP64 attr_img =
      [⟨str "MYDISK", "2013:0:23 0:11:12", 0, ["label"]⟩,
       ⟨str "BIG.BIN", "2013:0:23 0:11:12", -2147483648, []⟩] := by
  have hrow : (entry_row dm e).attr_strs =
      (attrs.filter (fun a => a.2 = e.attributes dm)).map (fun a => a.1) := rfl
  obtain ⟨c1, c2, c3⟩ := attrs_filter_cases (e.attributes dm)
  rw [hrow]
  exact ⟨c1, c2, c3, by decide, by decide, by decide!⟩

/-- C17: when the exact product `(rsrvd_sects + fat_size * fats_n) * sect_size` is below
`2 ^ 31` (and `size_t` has at least 4 bytes), none of the three `int` operations of the
offset expression overflows, each yields the exact value, and the `size_t` offset `main`
seeks to is the exact product.  For the boot sector `overflow_img` (65535, 65535, 255,
65535) the exact product is above `INT_MAX`, the last multiplication does not yield the
exact value, and the offset differs from the exact product. -/
theorem root_offset_exact_iff_no_int_overflow :
    (∀ (dm : DataModel) (bs : fat16_bs_t), 4 ≤ dm.sizeof_long →
      (bs.rsrvd_sects dm + bs.fat_size dm * bs.fats_n dm) * bs.sect_size dm < 2 ^ 31 →
      int_mul (bs.fat_size dm) (bs.fats_n dm) = ((bs.fat_size dm * bs.fats_n dm : Nat) : Int) ∧
      int_add (bs.rsrvd_sects dm) (int_mul (bs.fat_size dm) (bs.fats_n dm)) =
        ((bs.rsrvd_sects dm + bs.fat_size dm * bs.fats_n dm : Nat) : Int) ∧
      int_mul (int_add (bs.rsrvd_sects dm) (int_mul (bs.fat_size dm) (bs.fats_n dm)))
          (bs.sect_size dm) =
        (((bs.rsrvd_sects dm + bs.fat_size dm * bs.fats_n dm) * bs.sect_size dm : Nat) : Int) ∧
      root_offset dm bs =
        (bs.rsrvd_sects dm + bs.fat_size dm * bs.fats_n dm) * bs.sect_size dm) ∧
    ((read_bs LP64 overflow_img).rsrvd_sects LP64 +
        (read_bs LP64 overflow_img).fat_size LP64 * (read_bs LP64 overflow_img).fats_n LP64) *
      (read_bs LP64 overflow_img).sect_size LP64 = 1099478073600 ∧
    ¬ (1099478073600 : Int) ≤ INT_MAX ∧
    int_mul (int_add 65535 (int_mul 65535 255)) 65535 = -33554176 ∧
    root_offset LP64 (read_bs LP64 overflow_img) ≠ 1099478073600 ∧
    root_offset ILP32 (read_bs ILP32 overflow_img) ≠ 1099478073600 := by
  exact ⟨root_offset_of_small, by decide, by decide, by decide, by decide, by decide⟩

/-- Witness of C17: the boot sector of `sample_img`, whose exact product is 8704. -/
theorem root_offset_exact_iff_no_int_overflow_witness :
    4 ≤ LP64.sizeof_long ∧
    ((read_bs LP64 sample_img).rsrvd_sects LP64 +
        (read_bs LP64 sample_img).fat_size LP64 * (read_bs LP64 sample_img).fats_n LP64) *
      (read_bs LP64 sample_img).sect_size LP64 < 2 ^ 31 ∧
    root_offset LP64 (read_bs LP64 sample_img) =
      ((read_bs LP64 sample_img).rsrvd_sects LP64 +
        (read_bs LP64 sample_img).fat_size LP64 * (read_bs LP64 sample_img).fats_n LP64) *
      (read_bs LP64 sample_img).sect_size LP64 ∧
    root_offset LP64 (read_bs LP64 sample_img) = 8704 :=
  ⟨by decide, by decide, (root_offset_exact_iff_no_int_overflow.1 LP64 (read_bs LP64 sample_img)
    (by decide) (by decide)).2.2.2, by decide⟩

/-- C18: for every 16-bit date and time, the six numbers `date_format` writes are
`y, m, d, a, b, c` with `date = (y - 1980) * 512 + m * 32 + d`, `1980 ≤ y ≤ 2107`,
`m ≤ 15`, `d ≤ 31`, and `time = c * 2048 + b * 32 + a`, `a ≤ 31`, `b ≤ 63`, `c ≤ 31`;
hence the map from the pair of date and time to the six numbers is injective. -/
theorem date_format_fields_lossless :
    (∀ date time : Fin 65536, ∃ y m d a b c : Nat,
      date_format_fields date.val time.val = [y, m, d, a, b, c] ∧
      date.val = (y - 1980) * 512 + m * 32 + d ∧ 1980 ≤ y ∧ y ≤ 2107 ∧ m ≤ 15 ∧ d ≤ 31 ∧
      time.val = c * 2048 + b * 32 + a ∧ a ≤ 31 ∧ b ≤ 63 ∧ c ≤ 31) ∧
    Function.Injective
      (fun p : Fin 65536 × Fin 65536 => date_format_fields p.1.val p.2.val) := by
  constructor
  · intro date time
    have hd := date.isLt
    have ht := time.isLt
    refine ⟨_, _, _, _, _, _, date_format_fields_eq date.val time.val, ?_⟩
    omega
  · rintro ⟨d1, t1⟩ ⟨d2, t2⟩ h
    simp only [date_format_fields_eq, List.cons.injEq, and_true] at h
    obtain ⟨h1, h2, h3, h4, h5, h6⟩ := h
    have e1 : d1.val = d2.val := by omega
    have e2 : t1.val = t2.val := by omega
    rw [Fin.ext e1, Fin.ext e2]

/-- C19: under the message `root entries (bytes)`, `print_fat16_info` writes the `int`
product `root_files_n * sect_size`, the count of root entries times the sector size, not
the count times the 32 bytes of a slot.  For the boot sector of `sample_img`, with 2 root
entries and 512-byte sectors, it writes 1024, while the root-directory region has
2 * 32 = 64 bytes. -/
theorem root_entries_bytes_multiplies_by_sect_size :
    (∀ (dm : DataModel) (bs : fat16_bs_t), info_value dm bs "root entries (bytes)" =
      some (to_string (int_mul (bs.root_files_n dm) (bs.sect_size dm)))) ∧
    (∀ dm : DataModel, sizeof_struct dm fat16_entry_members = 32) ∧
    (read_bs LP64 sample_img).root_files_n LP64 = 2 ∧
    (read_bs LP64 sample_img).sect_size LP64 = 512 ∧
    info_value LP64 (read_bs LP64 sample_img) "root entries (bytes)" = some "1024" ∧
    to_string (2 * 32) = "64" := by
  refine ⟨info_value_root_entries_bytes, sizeof_entry, by decide, by decide, by decide!, by decide⟩

end Fat16
